import Mathlib

/-!
Shallow embedding of the render.js raytracer core, translated from the
repository sources:

* `src/random.js`          — seeded LCG and per-pixel seed derivation
* `src/math.js`            — `Vec3`, `Ray`, `Color` (clamped RGB)
* `src/geometry.js`        — `Sphere`, `Plane`, `Triangle`, `Scene`, `NURBSSurface`
* `src/raytracer.js`       — `Camera.getRay`, `Raytracer.renderPixel`, `Raytracer.render`
* `src/multi-threaded-raytracer.js` / `src/render-worker.js`
                           — strip partitioning, per-strip rendering, tile reassembly

JavaScript doubles are modelled by `ℝ`; integer quantities (seeds, pixel
coordinates, sample counts) by `ℕ`.  The `tMax` parameter of intersection
routines is modelled by `WithTop ℝ` so that the JavaScript `Infinity`
default is the literal `⊤`.  `x / 0 = 0` conventions of Lean are only ever
exercised on degenerate inputs that the theorems exclude via the data-model
invariants of the specification (normalized ray directions, nonzero radii).
-/

namespace Render

open scoped Classical

/-! ## Deterministic RNG (`src/random.js`) -/

/-- State of the linear-congruential generator (`SeededRandom`, random.js). -/
structure SeededRandom where
  seed : ℕ
deriving DecidableEq

/-- The LCG state update of `SeededRandom.random`:
`this.seed = (1664525 * this.seed + 1013904223) % (2 ** 32)`. -/
def lcg (s : ℕ) : ℕ := (1664525 * s + 1013904223) % 2 ^ 32

/-- `SeededRandom.random()` (random.js, lines 9–14): advance the state with
the LCG and return `state / 2^32` together with the updated generator. -/
noncomputable def SeededRandom.random (g : SeededRandom) : ℝ × SeededRandom :=
  ((lcg g.seed : ℝ) / 2 ^ 32, ⟨lcg g.seed⟩)

/-- `getPixelSeed(baseSeed, x, y, width, height)` (random.js, lines 44–48).
The `height` parameter is accepted but not used by the source. -/
def getPixelSeed (baseSeed x y width _height : ℕ) : ℕ :=
  baseSeed + (y * width + x) * 1337 + x * 7919 + y * 3571

/-- `createPixelRandom(baseSeed, x, y, width, height)` (random.js, lines 51–54). -/
def createPixelRandom (baseSeed x y width height : ℕ) : SeededRandom :=
  ⟨getPixelSeed baseSeed x y width height⟩

/-- `Math.ceil(Math.sqrt(n))` for a natural number `n` (the stratified
sample-grid side in `renderPixel`). -/
def ceilSqrt (n : ℕ) : ℕ :=
  if Nat.sqrt n * Nat.sqrt n = n then Nat.sqrt n else Nat.sqrt n + 1

/-- `Math.ceil(height / numThreads)` used for the strip height
(`tilesPerThread`, multi-threaded-raytracer.js line 757). -/
def ceilDiv (h n : ℕ) : ℕ := (h + n - 1) / n

/-! ## Math kernel (`src/math.js`) -/

/-- `Vec3` (math.js): three double components. -/
structure Vec3 where
  x : ℝ
  y : ℝ
  z : ℝ

namespace Vec3

def add (a b : Vec3) : Vec3 := ⟨a.x + b.x, a.y + b.y, a.z + b.z⟩

def subtract (a b : Vec3) : Vec3 := ⟨a.x - b.x, a.y - b.y, a.z - b.z⟩

def multiply (a : Vec3) (s : ℝ) : Vec3 := ⟨a.x * s, a.y * s, a.z * s⟩

def dot (a b : Vec3) : ℝ := a.x * b.x + a.y * b.y + a.z * b.z

def cross (a b : Vec3) : Vec3 :=
  ⟨a.y * b.z - a.z * b.y, a.z * b.x - a.x * b.z, a.x * b.y - a.y * b.x⟩

noncomputable def length (a : Vec3) : ℝ :=
  Real.sqrt (a.x * a.x + a.y * a.y + a.z * a.z)

/-- `normalize()` returns the zero vector when the length is not positive. -/
noncomputable def normalize (a : Vec3) : Vec3 :=
  if 0 < a.length then ⟨a.x / a.length, a.y / a.length, a.z / a.length⟩ else ⟨0, 0, 0⟩

def negate (a : Vec3) : Vec3 := ⟨-a.x, -a.y, -a.z⟩

def reflect (a normal : Vec3) : Vec3 :=
  a.subtract (normal.multiply (2 * a.dot normal))

end Vec3

/-- `Color` (math.js): the constructor clamps each channel to `[0, 1]`;
`Color.make` is that constructor. -/
structure Color where
  r : ℝ
  g : ℝ
  b : ℝ

namespace Color

def make (r g b : ℝ) : Color :=
  ⟨max 0 (min 1 r), max 0 (min 1 g), max 0 (min 1 b)⟩

def add (c d : Color) : Color := make (c.r + d.r) (c.g + d.g) (c.b + d.b)

def multiply (c : Color) (s : ℝ) : Color := make (c.r * s) (c.g * s) (c.b * s)

def blend (c d : Color) : Color := make (c.r * d.r) (c.g * d.g) (c.b * d.b)

/-- Each channel lies in `[0, 1]`. -/
def Clamped (c : Color) : Prop :=
  0 ≤ c.r ∧ c.r ≤ 1 ∧ 0 ≤ c.g ∧ c.g ≤ 1 ∧ 0 ≤ c.b ∧ c.b ≤ 1

end Color

/-- `Ray` (math.js): the constructor normalizes the direction (`Ray.make`).
The stored `tMin`/`tMax` fields of the source are omitted: every code path
modelled here passes `tMin`/`tMax` to `intersect` explicitly (and
`Scene.intersect` is always invoked with its defaults `0.001`/`Infinity`). -/
structure Ray where
  origin : Vec3
  direction : Vec3

noncomputable def Ray.make (origin direction : Vec3) : Ray :=
  ⟨origin, direction.normalize⟩

def Ray.at (r : Ray) (t : ℝ) : Vec3 := r.origin.add (r.direction.multiply t)

/-! ## Geometry (`src/geometry.js`) -/

/-- `Material` (geometry.js lines 3–12). -/
structure Material where
  color : Color
  ambient : ℝ
  diffuse : ℝ
  specular : ℝ
  shininess : ℝ
  reflectivity : ℝ

/-- `HitRecord` (geometry.js lines 14–27), returned by value instead of
being mutated in place. -/
structure HitRecord where
  t : ℝ
  point : Vec3
  normal : Vec3
  material : Material
  frontFace : Bool

/-- Populate a `HitRecord` the way the three primitive `intersect` bodies do:
set `t`, `point = ray.at t`, run `setFaceNormal(ray, outward)` and store the
material.  `setFaceNormal` flips the outward normal against the incoming ray
(geometry.js lines 23–26). -/
noncomputable def HitRecord.build (ray : Ray) (t : ℝ) (outward : Vec3) (mat : Material) :
    HitRecord :=
  if ray.direction.dot outward < 0 then ⟨t, ray.at t, outward, mat, true⟩
  else ⟨t, ray.at t, outward.negate, mat, false⟩

/-- `Sphere` (geometry.js lines 29–62). -/
structure Sphere where
  center : Vec3
  radius : ℝ
  material : Material

namespace Sphere

/-- Quadratic coefficient `a = D·D` of `Sphere.intersect`. -/
def coeffA (_s : Sphere) (ray : Ray) : ℝ := ray.direction.dot ray.direction

/-- Quadratic coefficient `b = 2 oc·D` of `Sphere.intersect`. -/
def coeffB (s : Sphere) (ray : Ray) : ℝ :=
  2 * (ray.origin.subtract s.center).dot ray.direction

/-- Quadratic coefficient `c = oc·oc - r²` of `Sphere.intersect`. -/
def coeffC (s : Sphere) (ray : Ray) : ℝ :=
  (ray.origin.subtract s.center).dot (ray.origin.subtract s.center) - s.radius * s.radius

/-- The discriminant `b² - 4ac` of `Sphere.intersect`. -/
def discrim (s : Sphere) (ray : Ray) : ℝ :=
  s.coeffB ray * s.coeffB ray - 4 * s.coeffA ray * s.coeffC ray

/-- The first root tried by `Sphere.intersect`: `(-b - √disc) / (2a)`. -/
noncomputable def root1 (s : Sphere) (ray : Ray) : ℝ :=
  (-s.coeffB ray - Real.sqrt (s.discrim ray)) / (2 * s.coeffA ray)

/-- The fallback root of `Sphere.intersect`: `(-b + √disc) / (2a)`. -/
noncomputable def root2 (s : Sphere) (ray : Ray) : ℝ :=
  (-s.coeffB ray + Real.sqrt (s.discrim ray)) / (2 * s.coeffA ray)

/-- The record a sphere hit at parameter `root` reports: outward normal
`(point - center) * (1 / radius)`. -/
noncomputable def hitAt (s : Sphere) (ray : Ray) (root : ℝ) : HitRecord :=
  HitRecord.build ray root (((ray.at root).subtract s.center).multiply (1 / s.radius))
    s.material

/-- `Sphere.intersect` (geometry.js lines 36–61). -/
noncomputable def intersect (s : Sphere) (ray : Ray) (tMin : ℝ) (tMax : WithTop ℝ) :
    Option HitRecord :=
  if s.discrim ray < 0 then none
  else if s.root1 ray < tMin ∨ tMax < (s.root1 ray : WithTop ℝ) then
    if s.root2 ray < tMin ∨ tMax < (s.root2 ray : WithTop ℝ) then none
    else some (s.hitAt ray (s.root2 ray))
  else some (s.hitAt ray (s.root1 ray))

end Sphere

/-- `Plane` (geometry.js lines 64–84): the constructor normalizes the normal. -/
structure Plane where
  point : Vec3
  normal : Vec3
  material : Material

/-- The `Plane` constructor. -/
noncomputable def Plane.make (point normal : Vec3) (mat : Material) : Plane :=
  ⟨point, normal.normalize, mat⟩

/-- `Plane.intersect` (geometry.js lines 71–83). -/
noncomputable def Plane.intersect (p : Plane) (ray : Ray) (tMin : ℝ) (tMax : WithTop ℝ) :
    Option HitRecord :=
  let denom := p.normal.dot ray.direction
  if |denom| < 1e-8 then none
  else
    let t := (p.point.subtract ray.origin).dot p.normal / denom
    if t < tMin ∨ tMax < (t : WithTop ℝ) then none
    else some (HitRecord.build ray t p.normal p.material)

/-- `Triangle` (geometry.js lines 86–123): the constructor precomputes the
normalized face normal. -/
structure Triangle where
  v0 : Vec3
  v1 : Vec3
  v2 : Vec3
  material : Material
  normal : Vec3

/-- The `Triangle` constructor. -/
noncomputable def Triangle.make (v0 v1 v2 : Vec3) (mat : Material) : Triangle :=
  ⟨v0, v1, v2, mat, ((v1.subtract v0).cross (v2.subtract v0)).normalize⟩

/-- `Triangle.intersect` (geometry.js lines 95–123), Möller–Trumbore. -/
noncomputable def Triangle.intersect (tr : Triangle) (ray : Ray) (tMin : ℝ)
    (tMax : WithTop ℝ) : Option HitRecord :=
  let edge1 := tr.v1.subtract tr.v0
  let edge2 := tr.v2.subtract tr.v0
  let h := ray.direction.cross edge2
  let a := edge1.dot h
  if -1e-8 < a ∧ a < 1e-8 then none
  else
    let f := 1 / a
    let s := ray.origin.subtract tr.v0
    let u := f * s.dot h
    if u < 0 ∨ 1 < u then none
    else
      let q := s.cross edge1
      let v := f * ray.direction.dot q
      if v < 0 ∨ 1 < u + v then none
      else
        let t := f * edge2.dot q
        if t < tMin ∨ tMax < (t : WithTop ℝ) then none
        else some (HitRecord.build ray t tr.normal tr.material)

/-- The post-construction state of a `NURBSSurface` that its `intersect`
method reads (geometry.js lines 469–525): the precomputed control-point
bounding box (`this.boundingBox`, the axis-aligned min/max over the control
points, inflated by `0.001` on any near-degenerate axis) and the tessellated
triangle mesh (`this.triangles`, built once at construction from a `15×15`
sample of `evaluatePoint`).  Note the mesh of a validated surface need not
lie inside the control-point box: a zero weight makes `evaluatePoint` fall
back to the zero point (`|denominator| < 1e-10`, lines 431–435), so the
tessellation can contain triangles reaching far outside the box. -/
structure NURBSSurfaceGeom where
  boxMin : Vec3
  boxMax : Vec3
  triangles : List Triangle
  material : Material

/-- One iteration (`i = 0, 1, 2`) of the slab loop of
`NURBSSurface.intersectBoundingBox` (geometry.js lines 470–500): the state
is the clipped `(tMin, tMax)` window, `none` meaning an early `return false`. -/
noncomputable def slabCheck (o d minVal maxVal : ℝ) (acc : ℝ × WithTop ℝ) :
    Option (ℝ × WithTop ℝ) :=
  if |d| < 1e-10 then
    if o < minVal ∨ maxVal < o then none else some acc
  else
    let t1 := (minVal - o) / d
    let t2 := (maxVal - o) / d
    let tNear := min t1 t2
    let tFar := max t1 t2
    let tMin' := max acc.1 tNear
    let tMax' := min acc.2 ((tFar : ℝ) : WithTop ℝ)
    if tMax' < (tMin' : WithTop ℝ) then none else some (tMin', tMax')

/-- `NURBSSurface.intersectBoundingBox(ray, tMin, tMax)`: the three slab
iterations chained in axis order `x`, `y`, `z`. -/
noncomputable def NURBSSurfaceGeom.intersectBoundingBox (n : NURBSSurfaceGeom)
    (ray : Ray) (tMin : ℝ) (tMax : WithTop ℝ) : Bool :=
  match slabCheck ray.origin.x ray.direction.x n.boxMin.x n.boxMax.x (tMin, tMax) with
  | none => false
  | some acc1 =>
    match slabCheck ray.origin.y ray.direction.y n.boxMin.y n.boxMax.y acc1 with
    | none => false
    | some acc2 =>
      match slabCheck ray.origin.z ray.direction.z n.boxMin.z n.boxMax.z acc2 with
      | none => false
      | some _ => true

/-- `NURBSSurface.intersect(ray, tMin, tMax, hitRecord)` (geometry.js lines
502–525): box-cull against the *incoming* (possibly narrowed) window, then a
nearest-hit scan over the tessellated triangles. -/
noncomputable def NURBSSurfaceGeom.intersect (n : NURBSSurfaceGeom) (ray : Ray)
    (tMin : ℝ) (tMax : WithTop ℝ) : Option HitRecord :=
  if n.intersectBoundingBox ray tMin tMax then
    (n.triangles.foldl
      (fun acc tri =>
        match tri.intersect ray tMin acc.1 with
        | some h => ((h.t : WithTop ℝ), some h)
        | none => acc)
      (tMax, none)).2
  else none

/-- A scene object: `Scene.objects` holds spheres, planes, triangles and
NURBS surfaces (the latter modelled by their post-construction geometry). -/
inductive Obj where
  | sphere (s : Sphere)
  | plane (p : Plane)
  | triangle (t : Triangle)
  | nurbs (n : NURBSSurfaceGeom)

/-- Dispatch `object.intersect(ray, tMin, tMax, rec)`. -/
noncomputable def Obj.intersect : Obj → Ray → ℝ → WithTop ℝ → Option HitRecord
  | .sphere s, ray, tMin, tMax => s.intersect ray tMin tMax
  | .plane p, ray, tMin, tMax => p.intersect ray tMin tMax
  | .triangle t, ray, tMin, tMax => t.intersect ray tMin tMax
  | .nurbs n, ray, tMin, tMax => n.intersect ray tMin tMax

/-- The objects whose intersection is a closed-form test of the ray against
fixed geometry: spheres, planes and triangles.  A `NURBSSurface` is excluded
because its bounding-box cull is evaluated against the narrowed `tMax` and
is not monotone in the window when the tessellation escapes the
control-point box. -/
def Obj.closedForm : Obj → Prop
  | .sphere _ => True
  | .plane _ => True
  | .triangle _ => True
  | .nurbs _ => False

/-- One step of the `Scene.intersect` loop: on a hit, narrow `closestSoFar`
to the hit's `t` and keep its record. -/
noncomputable def sceneStep (ray : Ray) (tMin : ℝ) (acc : WithTop ℝ × Option HitRecord)
    (o : Obj) : WithTop ℝ × Option HitRecord :=
  match o.intersect ray tMin acc.1 with
  | some h => ((h.t : WithTop ℝ), some h)
  | none => acc

/-- `Scene.intersect(ray, tMin, tMax)` (geometry.js lines 141–157): linear
scan over the object list, narrowing the upper bound to the closest hit. -/
noncomputable def Scene.intersect (objects : List Obj) (ray : Ray) (tMin : ℝ)
    (tMax : WithTop ℝ) : Option HitRecord :=
  (objects.foldl (sceneStep ray tMin) (tMax, none)).2

/-! ## NURBS surface construction (`src/geometry.js` lines 169–200)

Only the construction-time validation is modelled: the constructor stores
the control grid, derives `uCount`/`vCount` from it, and throws
`Invalid NURBS surface parameters` when `validate()` fails.  The bounding
box and tessellation computed afterwards are total on validated data and
are not needed by any claim. -/

/-- The raw constructor arguments of `NURBSSurface`. -/
structure NURBSData where
  controlPoints : List (List Vec3)
  weights : List (List ℝ)
  uKnots : List ℝ
  vKnots : List ℝ
  uDegree : ℕ
  vDegree : ℕ
  material : Material

/-- `this.uCount = controlPoints.length`. -/
def NURBSData.uCount (d : NURBSData) : ℕ := d.controlPoints.length

/-- `this.vCount = controlPoints[0].length` (the source indexes the first
row; on an empty grid JavaScript throws before validation). -/
def NURBSData.vCount (d : NURBSData) : ℕ := (d.controlPoints.headD []).length

/-- `NURBSSurface.validate()` (geometry.js lines 194–200). -/
def NURBSData.validate (d : NURBSData) : Bool :=
  d.uKnots.length = d.uCount + d.uDegree + 1 ∧ d.vKnots.length = d.vCount + d.vDegree + 1

/-- The `NURBSSurface` constructor (geometry.js lines 170–192): store the
data and throw when validation fails. -/
def NURBSSurface.make (d : NURBSData) : Except String NURBSData :=
  if d.validate then .ok d else .error "Invalid NURBS surface parameters"

/-! ## Camera and raytracer (`src/raytracer.js`) -/

/-- The derived state of `Camera` that `getRay` reads (position, image-plane
corner and span vectors, computed once by `setupCamera`). -/
structure Camera where
  position : Vec3
  lowerLeftCorner : Vec3
  horizontal : Vec3
  vertical : Vec3

/-- `Camera.getRay(u, v)` (raytracer.js lines 33–40). -/
noncomputable def Camera.getRay (c : Camera) (u v : ℝ) : Ray :=
  Ray.make c.position
    (((c.lowerLeftCorner.add (c.horizontal.multiply u)).add
      (c.vertical.multiply v)).subtract c.position)

/-- The `Raytracer` configuration fields read by the rendering loops. -/
structure RenderConfig where
  width : ℕ
  height : ℕ
  samples : ℕ
  useStratifiedSampling : Bool
  gammaCorrection : ℝ
  randomSeed : ℕ

/-- Map a list while threading a state (used for loops that consume the
per-pixel RNG in source order). -/
def statefulMap {α β σ : Type _} (f : α → σ → β × σ) : List α → σ → List β × σ
  | [], s => ([], s)
  | a :: as, s =>
    let p := f a s
    let rest := statefulMap f as p.2
    (p.1 :: rest.1, rest.2)

/-- One pair of RNG draws, `offsetX` first then `offsetY`, exactly as in the
sampling loops of `renderPixel`. -/
noncomputable def drawPair (g : SeededRandom) : (ℝ × ℝ) × SeededRandom :=
  let p1 := g.random
  let p2 := p1.2.random
  ((p1.1, p2.1), p2.2)

/-- The jittered offsets produced by the stratified loop of `renderPixel`
(raytracer.js lines 112–125): cells `(sy, sx)` in row-major order, each cell
drawing `offsetX` and `offsetY` and using `(s + r) / sqrtSamples`. -/
noncomputable def stratOffsets (n : ℕ) (g : SeededRandom) : List (ℝ × ℝ) :=
  (statefulMap
    (fun (cell : ℕ × ℕ) g0 =>
      let p := drawPair g0
      (((cell.2 + p.1.1) / n, (cell.1 + p.1.2) / n), p.2))
    ((List.range n).flatMap fun sy => (List.range n).map fun sx => (sy, sx)) g).1

/-- The offsets produced by the plain random-sampling loop of `renderPixel`
(raytracer.js lines 130–137). -/
noncomputable def plainOffsets (samples : ℕ) (g : SeededRandom) : List (ℝ × ℝ) :=
  (statefulMap (fun (_ : ℕ) g0 => drawPair g0) (List.range samples) g).1

/-- The rays traced for pixel `(x, y)` by the stratified branch of
`renderPixel`. -/
noncomputable def stratRays (cfg : RenderConfig) (cam : Camera) (x y : ℕ) : List Ray :=
  (stratOffsets (ceilSqrt cfg.samples)
      (createPixelRandom cfg.randomSeed x y cfg.width cfg.height)).map
    fun o => cam.getRay ((x + o.1) / cfg.width) ((y + o.2) / cfg.height)

/-- The rays traced for pixel `(x, y)` by the plain random-sampling branch of
`renderPixel`. -/
noncomputable def plainRays (cfg : RenderConfig) (cam : Camera) (x y : ℕ) : List Ray :=
  (plainOffsets cfg.samples
      (createPixelRandom cfg.randomSeed x y cfg.width cfg.height)).map
    fun o => cam.getRay ((x + o.1) / cfg.width) ((y + o.2) / cfg.height)

/-- `Raytracer.renderPixel(x, y)` (raytracer.js lines 93–143).  `trace`
abstracts `traceRay(·, this.maxDepth)`, which consumes no RNG and is applied
to each generated ray in source order; the accumulated sum of clamped
`Color.add` operations is divided by the actual sample count of the branch. -/
noncomputable def renderPixel (cfg : RenderConfig) (cam : Camera) (trace : Ray → Color)
    (x y : ℕ) : Color :=
  if cfg.samples = 1 then
    trace (cam.getRay ((x + 0.5) / cfg.width) ((y + 0.5) / cfg.height))
  else if cfg.useStratifiedSampling then
    (((stratRays cfg cam x y).map trace).foldl Color.add (Color.make 0 0 0)).multiply
      (1 / ((ceilSqrt cfg.samples * ceilSqrt cfg.samples : ℕ) : ℝ))
  else
    (((plainRays cfg cam x y).map trace).foldl Color.add (Color.make 0 0 0)).multiply
      (1 / (cfg.samples : ℝ))

/-- The per-pixel gamma correction applied by both `Raytracer.render`
(raytracer.js lines 72–79) and `renderTile` (render-worker.js lines 1112–1119). -/
noncomputable def gammaCorrect (gamma : ℝ) (c : Color) : Color :=
  if gamma ≠ 1 then
    Color.make (Real.rpow c.r (1 / gamma)) (Real.rpow c.g (1 / gamma))
      (Real.rpow c.b (1 / gamma))
  else c

/-- One output row: pixel `i` from `0` to `width - 1` at image row `j`,
gamma-corrected (shared by the single-threaded loop and the worker loop). -/
noncomputable def renderRow (cfg : RenderConfig) (cam : Camera) (trace : Ray → Color)
    (j : ℕ) : List Color :=
  (List.range cfg.width).map fun i =>
    gammaCorrect cfg.gammaCorrection (renderPixel cfg cam trace i j)

/-- `Raytracer.render()` (raytracer.js lines 60–91): rows `j` from
`height - 1` down to `0`. -/
noncomputable def Raytracer.render (cfg : RenderConfig) (cam : Camera)
    (trace : Ray → Color) : List (List Color) :=
  (List.range cfg.height).map fun k => renderRow cfg cam trace (cfg.height - 1 - k)

/-! ## Tile scheduler (`src/multi-threaded-raytracer.js`, `src/render-worker.js`) -/

/-- `renderTile(raytracer, tileConfig)` (render-worker.js lines 1101–1131):
rows `j` from `endY - 1` down to `startY`, each gamma-corrected like the
single-threaded loop. -/
noncomputable def renderTile (cfg : RenderConfig) (cam : Camera) (trace : Ray → Color)
    (startY endY : ℕ) : List (List Color) :=
  (List.range (endY - startY)).map fun k => renderRow cfg cam trace (endY - 1 - k)

/-- The strip loop of `MultiThreadedRaytracer.render` for an arbitrary strip
height `q`: strip `i` covers rows `[i*q, min((i+1)*q, height))`; empty strips
are skipped. -/
def stripsAux (q height numThreads : ℕ) : List (ℕ × ℕ) :=
  (List.range numThreads).filterMap fun i =>
    if i * q < min ((i + 1) * q) height then some (i * q, min ((i + 1) * q) height)
    else none

/-- The strip list built by `MultiThreadedRaytracer.render` (lines 757–776),
with `q = tilesPerThread = ceil(height / numThreads)`. -/
def mkTiles (height numThreads : ℕ) : List (ℕ × ℕ) :=
  stripsAux (ceilDiv height numThreads) height numThreads

/-- `combineTiles(tileResults)` (multi-threaded-raytracer.js lines 842–858):
sort the strip results by `startY` descending, then concatenate their rows,
rebuilding each pixel with the clamping `Color` constructor. -/
noncomputable def combineTiles (results : List (ℕ × List (List Color))) :
    List (List Color) :=
  (results.insertionSort fun a b => b.1 ≤ a.1).flatMap fun res =>
    res.2.map fun row => row.map fun c => Color.make c.r c.g c.b

/-- `MultiThreadedRaytracer.render()` (lines 739–797): partition the rows
into strips, render every strip with a worker `Raytracer` rebuilt from the
same scene, camera, configuration and base seed (`Promise.all` returns the
results in strip order), and reassemble with `combineTiles`. -/
noncomputable def MultiThreadedRaytracer.render (cfg : RenderConfig) (cam : Camera)
    (trace : Ray → Color) (numThreads : ℕ) : List (List Color) :=
  combineTiles ((mkTiles cfg.height numThreads).map fun strip =>
    (strip.1, renderTile cfg cam trace strip.1 strip.2))

/-! ## Basic lemmas -/

theorem Color.make_clamped (r g b : ℝ) : (Color.make r g b).Clamped := by
  refine ⟨le_max_left _ _, ?_, le_max_left _ _, ?_, le_max_left _ _, ?_⟩ <;>
    exact max_le (by norm_num) (min_le_left _ _)

theorem Color.make_eq_self {c : Color} (h : c.Clamped) : Color.make c.r c.g c.b = c := by
  obtain ⟨c, _, _⟩ := c
  obtain ⟨h1, h2, h3, h4, h5, h6⟩ := h
  simp only [Color.make, Color.mk.injEq]
  refine ⟨?_, ?_, ?_⟩ <;> rw [min_eq_right (by assumption), max_eq_right (by assumption)]

theorem statefulMap_length {α β σ : Type _} (f : α → σ → β × σ) :
    ∀ (l : List α) (s : σ), ((statefulMap f l s).1).length = l.length := by
  intro l
  induction l with
  | nil => intro s; rfl
  | cons a as ih => intro s; simp [statefulMap, ih]

theorem stratOffsets_length (n : ℕ) (g : SeededRandom) :
    (stratOffsets n g).length = n * n := by
  simp [stratOffsets, statefulMap_length, Function.comp_def, List.map_const',
    List.sum_replicate, smul_eq_mul]

theorem stratRays_length (cfg : RenderConfig) (cam : Camera) (x y : ℕ) :
    (stratRays cfg cam x y).length = ceilSqrt cfg.samples * ceilSqrt cfg.samples := by
  simp [stratRays, stratOffsets_length]

theorem ceilSqrt_ten : ceilSqrt 10 * ceilSqrt 10 = 16 := by
  have h : Nat.sqrt 10 = 3 := (Nat.eq_sqrt.mpr (by norm_num)).symm
  rw [ceilSqrt, h]
  norm_num

/-! ## Claims C3, C5, C6, C8, C10 -/

/-- C3: for every RNG state `s < 2^32`, one call to `SeededRandom.random()`
updates the state to exactly `(1664525 * s + 1013904223) mod 2^32` (the
intermediate value stays below `2^53`, so IEEE-754 double arithmetic is
exact) and returns `state / 2^32`, a value in `[0, 1)`. -/
theorem C3_seeded_random_step (g : SeededRandom) (hs : g.seed < 2 ^ 32) :
    g.random.2.seed = (1664525 * g.seed + 1013904223) % 2 ^ 32 ∧
    1664525 * g.seed + 1013904223 < 2 ^ 53 ∧
    g.random.1 = (g.random.2.seed : ℝ) / 2 ^ 32 ∧
    0 ≤ g.random.1 ∧ g.random.1 < 1 := by
  refine ⟨rfl, ?_, rfl, ?_, ?_⟩
  · have h1 : 1664525 * g.seed ≤ 1664525 * (2 ^ 32 - 1) :=
      Nat.mul_le_mul_left _ (by omega)
    calc 1664525 * g.seed + 1013904223 ≤ 1664525 * (2 ^ 32 - 1) + 1013904223 := by omega
      _ < 2 ^ 53 := by norm_num
  · have h : g.random.1 = (lcg g.seed : ℝ) / 2 ^ 32 := rfl
    rw [h]
    apply div_nonneg (Nat.cast_nonneg _)
    norm_num
  · have h : g.random.1 = (lcg g.seed : ℝ) / 2 ^ 32 := rfl
    have h2 : lcg g.seed < 2 ^ 32 := by
      unfold lcg
      exact Nat.mod_lt _ (by norm_num)
    rw [h, div_lt_one (by norm_num)]
    exact_mod_cast h2

/-- C3 witness at the default base seed 12345. -/
theorem C3_seeded_random_step_witness :
    (12345 < 2 ^ 32) ∧
    ((⟨12345⟩ : SeededRandom).random.2.seed =
        (1664525 * 12345 + 1013904223) % 2 ^ 32 ∧
      1664525 * 12345 + 1013904223 < 2 ^ 53 ∧
      (⟨12345⟩ : SeededRandom).random.1 =
        (((⟨12345⟩ : SeededRandom).random.2.seed : ℕ) : ℝ) / 2 ^ 32 ∧
      0 ≤ (⟨12345⟩ : SeededRandom).random.1 ∧ (⟨12345⟩ : SeededRandom).random.1 < 1) :=
  ⟨by norm_num, C3_seeded_random_step ⟨12345⟩ (by norm_num)⟩

/-- C5: with stratified sampling enabled and more than one requested sample,
`renderPixel` traces exactly `⌈√samples⌉²` rays and divides the summed color
by that perfect square rather than by the requested count; requesting 10
samples yields 16 traced rays. -/
theorem C5_stratified_sample_count (cfg : RenderConfig) (cam : Camera)
    (trace : Ray → Color) (x y : ℕ) (hstrat : cfg.useStratifiedSampling = true)
    (hs : 1 < cfg.samples) :
    (stratRays cfg cam x y).length = ceilSqrt cfg.samples * ceilSqrt cfg.samples ∧
    renderPixel cfg cam trace x y =
      (((stratRays cfg cam x y).map trace).foldl Color.add
        (Color.make 0 0 0)).multiply
        (1 / ((ceilSqrt cfg.samples * ceilSqrt cfg.samples : ℕ) : ℝ)) ∧
    ceilSqrt 10 * ceilSqrt 10 = 16 := by
  refine ⟨stratRays_length cfg cam x y, ?_, ceilSqrt_ten⟩
  rw [renderPixel, if_neg (by omega), hstrat, if_pos rfl]

/-- C5 witness: a concrete configuration requesting 10 samples. -/
theorem C5_stratified_sample_count_witness :
    ((⟨4, 4, 10, true, 1, 42⟩ : RenderConfig).useStratifiedSampling = true ∧
      1 < (⟨4, 4, 10, true, 1, 42⟩ : RenderConfig).samples) ∧
    ((stratRays ⟨4, 4, 10, true, 1, 42⟩ ⟨⟨0,0,0⟩, ⟨0,0,0⟩, ⟨0,0,0⟩, ⟨0,0,0⟩⟩ 0 0).length =
        ceilSqrt 10 * ceilSqrt 10 ∧
      renderPixel ⟨4, 4, 10, true, 1, 42⟩ ⟨⟨0,0,0⟩, ⟨0,0,0⟩, ⟨0,0,0⟩, ⟨0,0,0⟩⟩
          (fun _ => Color.make 0 0 0) 0 0 =
        (((stratRays ⟨4, 4, 10, true, 1, 42⟩ ⟨⟨0,0,0⟩, ⟨0,0,0⟩, ⟨0,0,0⟩, ⟨0,0,0⟩⟩ 0 0).map
            (fun _ => Color.make 0 0 0)).foldl Color.add (Color.make 0 0 0)).multiply
          (1 / ((ceilSqrt 10 * ceilSqrt 10 : ℕ) : ℝ)) ∧
      ceilSqrt 10 * ceilSqrt 10 = 16) :=
  ⟨⟨rfl, by norm_num⟩,
    C5_stratified_sample_count ⟨4, 4, 10, true, 1, 42⟩ _ _ 0 0 rfl (by norm_num)⟩

/-- C6: every constructed `Color` — in particular every result of
`Color.add`, `Color.multiply` and `Color.blend`, applied to arbitrary
operands — has all three channels in `[0, 1]`. -/
theorem C6_color_channels_clamped (r g b s : ℝ) (c d : Color) :
    (Color.make r g b).Clamped ∧ (Color.add c d).Clamped ∧
    (Color.multiply c s).Clamped ∧ (Color.blend c d).Clamped :=
  ⟨Color.make_clamped _ _ _, Color.make_clamped _ _ _, Color.make_clamped _ _ _,
    Color.make_clamped _ _ _⟩

/-- C8: `NURBSSurface` construction fails (with the source's error message)
exactly when a knot-vector length differs from
`count + degree + 1`, and succeeds on every non-empty control grid whose
knot vectors satisfy both equations. -/
theorem C8_nurbs_construction_validation (d : NURBSData) :
    (¬(d.uKnots.length = d.uCount + d.uDegree + 1 ∧
        d.vKnots.length = d.vCount + d.vDegree + 1) →
      NURBSSurface.make d = .error "Invalid NURBS surface parameters") ∧
    (d.controlPoints ≠ [] →
      d.uKnots.length = d.uCount + d.uDegree + 1 →
      d.vKnots.length = d.vCount + d.vDegree + 1 →
      NURBSSurface.make d = .ok d) := by
  constructor
  · intro hbad
    rw [NURBSSurface.make, if_neg]
    simp only [NURBSData.validate, decide_eq_true_eq]
    exact hbad
  · intro _ hu hv
    rw [NURBSSurface.make, if_pos]
    simp only [NURBSData.validate, decide_eq_true_eq]
    exact ⟨hu, hv⟩

/-- C8 witness: a 1×1 degree-0 grid with valid knot vectors `[0, 1]`
constructs successfully, and the same grid with a truncated `uKnots`
vector fails with the source's error. -/
theorem C8_nurbs_construction_validation_witness :
    (¬((1 : ℕ) = 1 + 0 + 1) →
      NURBSSurface.make ⟨[[⟨0,0,0⟩]], [[1]], [0], [0, 1], 0, 0,
        ⟨Color.make 1 1 1, 1, 0, 0, 1, 0⟩⟩ =
        .error "Invalid NURBS surface parameters") ∧
    NURBSSurface.make ⟨[[⟨0,0,0⟩]], [[1]], [0, 1], [0, 1], 0, 0,
      ⟨Color.make 1 1 1, 1, 0, 0, 1, 0⟩⟩ =
      .ok ⟨[[⟨0,0,0⟩]], [[1]], [0, 1], [0, 1], 0, 0, ⟨Color.make 1 1 1, 1, 0, 0, 1, 0⟩⟩ :=
  ⟨fun h =>
    ((C8_nurbs_construction_validation _).1 (by
      intro hc
      exact h (by simpa [NURBSData.uCount, NURBSData.uDegree] using hc.1))),
  (C8_nurbs_construction_validation _).2 (by simp) (by rfl) (by rfl)⟩

/-- C10: the per-pixel seed derivation ignores its `height` parameter:
`getPixelSeed base x y width h` equals
`base + (y*width + x)*1337 + x*7919 + y*3571` for every `h`, and
`createPixelRandom` produces a generator whose state is likewise
independent of the height. -/
theorem C10_pixel_seed_ignores_height (base x y width h1 h2 : ℕ) :
    getPixelSeed base x y width h1 = getPixelSeed base x y width h2 ∧
    getPixelSeed base x y width h1 =
      base + (y * width + x) * 1337 + x * 7919 + y * 3571 ∧
    createPixelRandom base x y width h1 = createPixelRandom base x y width h2 :=
  ⟨rfl, rfl, rfl⟩

/-! ## Claim C2 -/

theorem renderTile_row (cfg : RenderConfig) (cam : Camera) (trace : Ray → Color)
    {s e y : ℕ} (h1 : s ≤ y) (h2 : y < e) :
    (renderTile cfg cam trace s e)[e - 1 - y]? = some (renderRow cfg cam trace y) := by
  have hidx : e - 1 - y < e - s := by omega
  rw [renderTile, List.getElem?_map, List.getElem?_range hidx]
  have hy : e - 1 - (e - 1 - y) = y := by omega
  simp [hy]

/-- C2: the color a worker computes for pixel row `y` does not depend on
which row strip the pixel was assigned to: for any two strips `[s1, e1)` and
`[s2, e2)` both containing `y`, the row extracted from either strip's output
is the same `renderRow` (every per-pixel seed is derived from the base seed
and the full image dimensions only, so every pixel's color is identical). -/
theorem C2_pixel_color_strip_independent (cfg : RenderConfig) (cam : Camera)
    (trace : Ray → Color) (s1 e1 s2 e2 y : ℕ) (h11 : s1 ≤ y) (h12 : y < e1)
    (h21 : s2 ≤ y) (h22 : y < e2) :
    (renderTile cfg cam trace s1 e1)[e1 - 1 - y]? = some (renderRow cfg cam trace y) ∧
    (renderTile cfg cam trace s1 e1)[e1 - 1 - y]? =
      (renderTile cfg cam trace s2 e2)[e2 - 1 - y]? := by
  refine ⟨renderTile_row cfg cam trace h11 h12, ?_⟩
  rw [renderTile_row cfg cam trace h11 h12, renderTile_row cfg cam trace h21 h22]

/-- C2 witness: row 1 of a 4×4 image, assigned either to strip `[0, 2)` or to
strip `[1, 3)`. -/
theorem C2_pixel_color_strip_independent_witness :
    ((0 : ℕ) ≤ 1 ∧ (1 : ℕ) < 2 ∧ (1 : ℕ) ≤ 1 ∧ (1 : ℕ) < 3) ∧
    ((renderTile ⟨4, 4, 1, true, 1, 42⟩ ⟨⟨0,0,0⟩, ⟨0,0,0⟩, ⟨0,0,0⟩, ⟨0,0,0⟩⟩
        (fun _ => Color.make 0 0 0) 0 2)[2 - 1 - 1]? =
      some (renderRow ⟨4, 4, 1, true, 1, 42⟩ ⟨⟨0,0,0⟩, ⟨0,0,0⟩, ⟨0,0,0⟩, ⟨0,0,0⟩⟩
        (fun _ => Color.make 0 0 0) 1) ∧
    (renderTile ⟨4, 4, 1, true, 1, 42⟩ ⟨⟨0,0,0⟩, ⟨0,0,0⟩, ⟨0,0,0⟩, ⟨0,0,0⟩⟩
        (fun _ => Color.make 0 0 0) 0 2)[2 - 1 - 1]? =
      (renderTile ⟨4, 4, 1, true, 1, 42⟩ ⟨⟨0,0,0⟩, ⟨0,0,0⟩, ⟨0,0,0⟩, ⟨0,0,0⟩⟩
        (fun _ => Color.make 0 0 0) 1 3)[3 - 1 - 1]?) :=
  ⟨⟨by norm_num, by norm_num, by norm_num, by norm_num⟩,
    C2_pixel_color_strip_independent _ _ _ 0 2 1 3 1 (by norm_num) (by norm_num)
      (by norm_num) (by norm_num)⟩

/-! ## Claim C1: helper lemmas -/

theorem ceilDiv_mul_le (h N : ℕ) (hN : 1 ≤ N) : h ≤ N * ceilDiv h N := by
  unfold ceilDiv
  have hd := Nat.div_add_mod (h + N - 1) N
  have hm : (h + N - 1) % N < N := Nat.mod_lt _ (by omega)
  omega

theorem ceilDiv_pos (h N : ℕ) (hh : 1 ≤ h) (hN : 1 ≤ N) : 1 ≤ ceilDiv h N := by
  unfold ceilDiv
  rw [Nat.le_div_iff_mul_le (by omega)]
  omega

theorem stripsAux_succ (q h N : ℕ) :
    stripsAux q h (N + 1) =
      stripsAux q h N ++
        (if N * q < min ((N + 1) * q) h then [(N * q, min ((N + 1) * q) h)] else []) := by
  rw [stripsAux, stripsAux, List.range_succ, List.filterMap_append]
  congr 1
  split <;> simp_all

theorem stripsAux_cover (q h : ℕ) (hq : 0 < q) :
    ∀ N, (stripsAux q h N).flatMap (fun se => List.range' se.1 (se.2 - se.1)) =
      List.range' 0 (min (N * q) h) := by
  intro N
  induction N with
  | zero => simp [stripsAux]
  | succ N ih =>
    rw [stripsAux_succ, List.flatMap_append, ih]
    have hmul : (N + 1) * q = N * q + q := by ring
    by_cases hc : N * q < min ((N + 1) * q) h
    · have h1 : N * q < h := lt_of_lt_of_le hc (min_le_right _ _)
      have h2 : min (N * q) h = N * q := min_eq_left (le_of_lt h1)
      have h3 : N * q ≤ min ((N + 1) * q) h := le_of_lt hc
      rw [if_pos hc, h2]
      have h4 : List.range' 0 (N * q) ++
          List.range' (0 + N * q) (min ((N + 1) * q) h - N * q) =
          List.range' 0 (min ((N + 1) * q) h - N * q + N * q) :=
        List.range'_append_1 0 (N * q) (min ((N + 1) * q) h - N * q)
      simp only [Nat.zero_add] at h4
      simp only [List.flatMap_cons, List.flatMap_nil, List.append_nil]
      rw [h4]
      congr 1
      omega
    · rw [if_neg hc]
      have h5 : h ≤ N * q := by
        rcases le_or_lt h (N * q) with h' | h'
        · exact h'
        · exfalso; exact hc (by omega)
      simp only [List.flatMap_nil, List.append_nil]
      congr 1
      omega

theorem mkTiles_cover (h N : ℕ) (hN : 1 ≤ N) :
    (mkTiles h N).flatMap (fun se => List.range' se.1 (se.2 - se.1)) =
      List.range' 0 h := by
  rcases Nat.eq_zero_or_pos h with h0 | hpos
  · subst h0
    have : ∀ q, stripsAux q 0 N = [] := by
      intro q
      rw [stripsAux, List.filterMap_eq_nil_iff.mpr]
      intro i _
      rw [if_neg (by omega)]
    simp [mkTiles, this]
  · have hq : 0 < ceilDiv h N := ceilDiv_pos h N hpos hN
    rw [mkTiles, stripsAux_cover _ _ hq N]
    congr 1
    have := ceilDiv_mul_le h N hN
    omega

theorem stripsAux_mem_lt {q h N : ℕ} {se : ℕ × ℕ} (hm : se ∈ stripsAux q h N) :
    se.1 < se.2 := by
  rw [stripsAux, List.mem_filterMap] at hm
  obtain ⟨i, _, hi⟩ := hm
  by_cases hc : i * q < min ((i + 1) * q) h
  · rw [if_pos hc] at hi
    cases hi
    exact hc
  · rw [if_neg hc] at hi
    cases hi

theorem stripsAux_pairwise (q h N : ℕ) :
    (stripsAux q h N).Pairwise fun a b => a.1 < b.1 := by
  rw [stripsAux, List.pairwise_filterMap]
  have := List.pairwise_lt_range N
  refine this.imp ?_
  intro i j hij a ha b hb
  by_cases hci : i * q < min ((i + 1) * q) h
  · by_cases hcj : j * q < min ((j + 1) * q) h
    · rw [if_pos hci, Option.mem_def, Option.some_inj] at ha
      rw [if_pos hcj, Option.mem_def, Option.some_inj] at hb
      subst ha; subst hb
      have h1 : i * q < (i + 1) * q := lt_of_lt_of_le hci (min_le_left _ _)
      have h2 : (i + 1) * q ≤ j * q := Nat.mul_le_mul_right q (by omega)
      exact lt_of_lt_of_le h1 h2
    · rw [if_neg hcj] at hb
      simp at hb
  · rw [if_neg hci] at ha
    simp at ha

theorem orderedInsert_of_forall_lt {β : Type _} (a : ℕ × β) :
    ∀ m : List (ℕ × β), (∀ b ∈ m, a.1 < b.1) →
      m.orderedInsert (fun x y => y.1 ≤ x.1) a = m ++ [a] := by
  intro m
  induction m with
  | nil => intro _; rfl
  | cons b m ih =>
    intro hlt
    rw [List.orderedInsert, if_neg, ih fun c hc => hlt c (List.mem_cons_of_mem b hc)]
    · rfl
    · have := hlt b (List.mem_cons_self b m)
      omega

theorem insertionSort_desc_of_ascending {β : Type _} :
    ∀ l : List (ℕ × β), l.Pairwise (fun a b => a.1 < b.1) →
      l.insertionSort (fun a b => b.1 ≤ a.1) = l.reverse := by
  intro l
  induction l with
  | nil => intro _; rfl
  | cons a l ih =>
    intro hp
    rw [List.insertionSort, ih hp.of_cons, List.reverse_cons]
    exact orderedInsert_of_forall_lt a l.reverse fun b hb =>
      (List.pairwise_cons.mp hp).1 b (List.mem_reverse.mp hb)

theorem reverse_flatMap_reverse {α β : Type _} (g : α → List β) :
    ∀ l : List α, l.reverse.flatMap (fun x => (g x).reverse) = (l.flatMap g).reverse := by
  intro l
  induction l with
  | nil => rfl
  | cons a l ih =>
    rw [List.reverse_cons, List.flatMap_append, ih, List.flatMap_cons, List.flatMap_nil,
      List.append_nil, List.flatMap_cons, List.reverse_append]

theorem renderTile_eq_reverse (cfg : RenderConfig) (cam : Camera) (trace : Ray → Color)
    {s e : ℕ} (hse : s ≤ e) :
    renderTile cfg cam trace s e =
      ((List.range' s (e - s)).map (renderRow cfg cam trace)).reverse := by
  rw [renderTile, ← List.map_reverse, List.reverse_range']
  rw [List.map_map]
  refine List.map_congr_left fun k _ => ?_
  simp only [Function.comp_apply]
  congr 1
  omega

theorem flatMap_congr_mem {α β : Type _} {l : List α} {f g : α → List β}
    (h : ∀ x ∈ l, f x = g x) : l.flatMap f = l.flatMap g := by
  induction l with
  | nil => rfl
  | cons a l ih =>
    rw [List.flatMap_cons, List.flatMap_cons, h a (List.mem_cons_self a l),
      ih fun x hx => h x (List.mem_cons_of_mem a hx)]

theorem renderPixel_clamped (cfg : RenderConfig) (cam : Camera) (trace : Ray → Color)
    (hcl : ∀ r, (trace r).Clamped) (x y : ℕ) : (renderPixel cfg cam trace x y).Clamped := by
  rw [renderPixel]
  split
  · exact hcl _
  · split
    · exact Color.make_clamped _ _ _
    · exact Color.make_clamped _ _ _

theorem gammaCorrect_clamped {gamma : ℝ} {c : Color} (hc : c.Clamped) :
    (gammaCorrect gamma c).Clamped := by
  rw [gammaCorrect]
  split
  · exact Color.make_clamped _ _ _
  · exact hc

theorem renderTile_reclamp (cfg : RenderConfig) (cam : Camera) (trace : Ray → Color)
    (hcl : ∀ r, (trace r).Clamped) (s e : ℕ) :
    (renderTile cfg cam trace s e).map
        (fun row => row.map fun c => Color.make c.r c.g c.b) =
      renderTile cfg cam trace s e := by
  rw [renderTile, List.map_map]
  refine List.map_congr_left fun k _ => ?_
  simp only [Function.comp_apply, renderRow, List.map_map]
  refine List.map_congr_left fun i _ => ?_
  exact Color.make_eq_self (gammaCorrect_clamped (renderPixel_clamped cfg cam trace hcl i _))

/-- C1: for every render configuration, camera, tracing function and worker
count `N ≥ 1`, the multi-threaded renderer — contiguous strips of
`ceil(height/N)` rows, each rendered with the same per-pixel function and
base seed, results sorted by `startY` descending and concatenated — produces
exactly the image of the single-threaded `Raytracer.render` loop.  (`trace`
returns constructed `Color` values, hence clamped channels, as every color
in the source is.) -/
theorem C1_multithreaded_eq_singlethreaded (cfg : RenderConfig) (cam : Camera)
    (trace : Ray → Color) (N : ℕ) (hN : 1 ≤ N) (hcl : ∀ r, (trace r).Clamped) :
    MultiThreadedRaytracer.render cfg cam trace N = Raytracer.render cfg cam trace := by
  rw [MultiThreadedRaytracer.render, combineTiles]
  have hpair : ((mkTiles cfg.height N).map fun strip =>
      (strip.1, renderTile cfg cam trace strip.1 strip.2)).Pairwise
        fun a b => a.1 < b.1 := by
    rw [List.pairwise_map]
    exact stripsAux_pairwise _ _ _
  rw [insertionSort_desc_of_ascending _ hpair, ← List.map_reverse, List.flatMap_map]
  have hstep1 : ((mkTiles cfg.height N).reverse.flatMap fun strip =>
        (renderTile cfg cam trace strip.1 strip.2).map
          fun row => row.map fun c => Color.make c.r c.g c.b) =
      (mkTiles cfg.height N).reverse.flatMap fun strip =>
        (((List.range' strip.1 (strip.2 - strip.1)).map
          (renderRow cfg cam trace)).reverse) := by
    refine flatMap_congr_mem fun strip hstrip => ?_
    have hlt : strip.1 < strip.2 := stripsAux_mem_lt (List.mem_reverse.mp hstrip)
    rw [renderTile_reclamp cfg cam trace hcl,
      renderTile_eq_reverse cfg cam trace (le_of_lt hlt)]
  rw [hstep1, List.flatMap_reverse]
  simp only [Function.comp_def, List.reverse_reverse]
  rw [← List.map_flatMap, mkTiles_cover cfg.height N hN]
  rw [Raytracer.render, ← List.map_reverse, List.reverse_range', List.map_map]
  refine (List.map_congr_left fun k _ => ?_).symm
  simp only [Function.comp_apply, Nat.zero_add]

/-- C1 witness: a 2×3 image rendered with 2 worker strips equals the
single-threaded render. -/
theorem C1_multithreaded_eq_singlethreaded_witness :
    ((1 : ℕ) ≤ 2 ∧ ∀ r : Ray, ((fun _ : Ray => Color.make 0 0 0) r).Clamped) ∧
    MultiThreadedRaytracer.render ⟨2, 3, 1, true, 1, 42⟩
        ⟨⟨0,0,0⟩, ⟨0,0,0⟩, ⟨0,0,0⟩, ⟨0,0,0⟩⟩ (fun _ => Color.make 0 0 0) 2 =
      Raytracer.render ⟨2, 3, 1, true, 1, 42⟩ ⟨⟨0,0,0⟩, ⟨0,0,0⟩, ⟨0,0,0⟩, ⟨0,0,0⟩⟩
        (fun _ => Color.make 0 0 0) :=
  ⟨⟨by norm_num, fun _ => Color.make_clamped 0 0 0⟩,
    C1_multithreaded_eq_singlethreaded _ _ _ 2 (by norm_num)
      fun _ => Color.make_clamped 0 0 0⟩

/-! ## Claim C7 -/

theorem coeffA_nonneg (s : Sphere) (ray : Ray) : 0 ≤ s.coeffA ray := by
  rw [Sphere.coeffA, Vec3.dot]
  have h1 := mul_self_nonneg ray.direction.x
  have h2 := mul_self_nonneg ray.direction.y
  have h3 := mul_self_nonneg ray.direction.z
  linarith

theorem sqrt_four : Real.sqrt 4 = 2 := by
  rw [show (4 : ℝ) = 2 ^ 2 by norm_num, Real.sqrt_sq (by norm_num : (0 : ℝ) ≤ 2)]

theorem unitSphere_root1 (m : Material) :
    Sphere.root1 ⟨⟨0, 0, 0⟩, 1, m⟩ ⟨⟨0, 0, 2⟩, ⟨0, 0, -1⟩⟩ = 1 := by
  have hd : Sphere.discrim ⟨⟨0, 0, 0⟩, 1, m⟩ ⟨⟨0, 0, 2⟩, ⟨0, 0, -1⟩⟩ = 4 := by
    simp only [Sphere.discrim, Sphere.coeffA, Sphere.coeffB, Sphere.coeffC, Vec3.dot,
      Vec3.subtract]
    norm_num
  rw [Sphere.root1, hd, sqrt_four]
  simp only [Sphere.coeffA, Sphere.coeffB, Sphere.coeffC, Vec3.dot, Vec3.subtract]
  norm_num

/-- C7: the ray from `(0,0,2)` along `-Z` hits the unit sphere at the origin
(with `tMin = 0.001`, `tMax = ∞`) at `t = 1`, point `(0,0,1)`, front-facing
outward normal `(0,0,1)`; in general the sphere intersection rejects a
negative discriminant, selects `root1 = (-b-√d)/(2a)` when it lies in
`[tMin,tMax]`, falls back to `root2 = (-b+√d)/(2a)`, reports a miss when
neither root is in range, and `root1 ≤ root2`. -/
theorem C7_sphere_intersection (m : Material) (s : Sphere) (ray : Ray) (tMin : ℝ)
    (tMax : WithTop ℝ) :
    (Sphere.intersect ⟨⟨0, 0, 0⟩, 1, m⟩ ⟨⟨0, 0, 2⟩, ⟨0, 0, -1⟩⟩ 0.001 ⊤ =
      some ⟨1, ⟨0, 0, 1⟩, ⟨0, 0, 1⟩, m, true⟩) ∧
    (s.discrim ray < 0 → s.intersect ray tMin tMax = none) ∧
    (0 ≤ s.discrim ray → tMin ≤ s.root1 ray → (s.root1 ray : WithTop ℝ) ≤ tMax →
      s.intersect ray tMin tMax = some (s.hitAt ray (s.root1 ray))) ∧
    (0 ≤ s.discrim ray → (s.root1 ray < tMin ∨ tMax < (s.root1 ray : WithTop ℝ)) →
      tMin ≤ s.root2 ray → (s.root2 ray : WithTop ℝ) ≤ tMax →
      s.intersect ray tMin tMax = some (s.hitAt ray (s.root2 ray))) ∧
    ((s.root1 ray < tMin ∨ tMax < (s.root1 ray : WithTop ℝ)) →
      (s.root2 ray < tMin ∨ tMax < (s.root2 ray : WithTop ℝ)) →
      s.intersect ray tMin tMax = none) ∧
    (0 ≤ s.discrim ray → s.root1 ray ≤ s.root2 ray) := by
  refine ⟨?_, ?_, ?_, ?_, ?_, ?_⟩
  · have hr1 := unitSphere_root1 m
    have hd : Sphere.discrim ⟨⟨0, 0, 0⟩, 1, m⟩ ⟨⟨0, 0, 2⟩, ⟨0, 0, -1⟩⟩ = 4 := by
      simp only [Sphere.discrim, Sphere.coeffA, Sphere.coeffB, Sphere.coeffC, Vec3.dot,
        Vec3.subtract]
      norm_num
    rw [Sphere.intersect, if_neg (by rw [hd]; norm_num), if_neg, hr1]
    · rw [Sphere.hitAt, HitRecord.build, if_pos]
      · simp only [Ray.at, Vec3.add, Vec3.multiply, Vec3.subtract, HitRecord.mk.injEq]
        norm_num [Vec3.mk.injEq]
      · simp only [Vec3.dot, Vec3.subtract, Ray.at, Vec3.add, Vec3.multiply]
        norm_num
    · rw [hr1]
      push_neg
      exact ⟨by norm_num, le_top⟩
  · intro hd
    rw [Sphere.intersect, if_pos hd]
  · intro hd h1 h2
    rw [Sphere.intersect, if_neg (not_lt.mpr hd), if_neg]
    push_neg
    exact ⟨h1, h2⟩
  · intro hd h1 h2 h3
    rw [Sphere.intersect, if_neg (not_lt.mpr hd), if_pos h1, if_neg]
    push_neg
    exact ⟨h2, h3⟩
  · intro h1 h2
    by_cases hd : s.discrim ray < 0
    · rw [Sphere.intersect, if_pos hd]
    · rw [Sphere.intersect, if_neg hd, if_pos h1, if_pos h2]
  · intro hd
    have ha := coeffA_nonneg s ray
    have hsq := Real.sqrt_nonneg (s.discrim ray)
    rcases eq_or_lt_of_le ha with ha0 | hapos
    · rw [Sphere.root1, Sphere.root2, ← ha0, mul_zero, div_zero, div_zero]
    · rw [Sphere.root1, Sphere.root2, div_le_div_iff_of_pos_right (by linarith)]
      linarith

/-- C7 witness: the concrete unit-sphere hit, and the root ordering at a
nonnegative discriminant. -/
theorem C7_sphere_intersection_witness :
    (Sphere.intersect ⟨⟨0, 0, 0⟩, 1, ⟨Color.make 1 1 1, 1, 0, 0, 1, 0⟩⟩
        ⟨⟨0, 0, 2⟩, ⟨0, 0, -1⟩⟩ 0.001 ⊤ =
      some ⟨1, ⟨0, 0, 1⟩, ⟨0, 0, 1⟩, ⟨Color.make 1 1 1, 1, 0, 0, 1, 0⟩, true⟩) ∧
    ((0 : ℝ) ≤ Sphere.discrim ⟨⟨0, 0, 0⟩, 1, ⟨Color.make 1 1 1, 1, 0, 0, 1, 0⟩⟩
        ⟨⟨0, 0, 2⟩, ⟨0, 0, -1⟩⟩ ∧
      Sphere.root1 ⟨⟨0, 0, 0⟩, 1, ⟨Color.make 1 1 1, 1, 0, 0, 1, 0⟩⟩
          ⟨⟨0, 0, 2⟩, ⟨0, 0, -1⟩⟩ ≤
        Sphere.root2 ⟨⟨0, 0, 0⟩, 1, ⟨Color.make 1 1 1, 1, 0, 0, 1, 0⟩⟩
          ⟨⟨0, 0, 2⟩, ⟨0, 0, -1⟩⟩) := by
  have hd : (0 : ℝ) ≤ Sphere.discrim ⟨⟨0, 0, 0⟩, 1, ⟨Color.make 1 1 1, 1, 0, 0, 1, 0⟩⟩
      ⟨⟨0, 0, 2⟩, ⟨0, 0, -1⟩⟩ := by
    simp only [Sphere.discrim, Sphere.coeffA, Sphere.coeffB, Sphere.coeffC, Vec3.dot,
      Vec3.subtract]
    norm_num
  exact ⟨(C7_sphere_intersection ⟨Color.make 1 1 1, 1, 0, 0, 1, 0⟩
      ⟨⟨0, 0, 0⟩, 1, ⟨Color.make 1 1 1, 1, 0, 0, 1, 0⟩⟩ ⟨⟨0, 0, 2⟩, ⟨0, 0, -1⟩⟩ 1 1).1,
    hd,
    (C7_sphere_intersection ⟨Color.make 1 1 1, 1, 0, 0, 1, 0⟩
      ⟨⟨0, 0, 0⟩, 1, ⟨Color.make 1 1 1, 1, 0, 0, 1, 0⟩⟩ ⟨⟨0, 0, 2⟩, ⟨0, 0, -1⟩⟩ 1 1).2.2.2.2.2
      hd⟩

/-! ## Claim C9: helper lemmas -/

theorem Vec3.dot_self_nonneg (v : Vec3) : 0 ≤ v.dot v := by
  rw [Vec3.dot]
  have h1 := mul_self_nonneg v.x
  have h2 := mul_self_nonneg v.y
  have h3 := mul_self_nonneg v.z
  linarith

theorem Vec3.dot_comm (v w : Vec3) : v.dot w = w.dot v := by
  simp only [Vec3.dot]
  ring

theorem Vec3.negate_dot (v w : Vec3) : v.negate.dot w = -(v.dot w) := by
  simp only [Vec3.negate, Vec3.dot]
  ring

theorem Vec3.dot_self_pos {v : Vec3} (hv : v ≠ ⟨0, 0, 0⟩) : 0 < v.dot v := by
  rcases lt_or_eq_of_le (Vec3.dot_self_nonneg v) with h | h
  · exact h
  · exfalso
    apply hv
    obtain ⟨x, y, z⟩ := v
    rw [Vec3.dot] at h
    have hx : x * x = 0 := by nlinarith [mul_self_nonneg x, mul_self_nonneg y, mul_self_nonneg z]
    have hy : y * y = 0 := by nlinarith [mul_self_nonneg x, mul_self_nonneg y, mul_self_nonneg z]
    have hz : z * z = 0 := by nlinarith [mul_self_nonneg x, mul_self_nonneg y, mul_self_nonneg z]
    simp only [Vec3.mk.injEq]
    exact ⟨mul_self_eq_zero.mp hx, mul_self_eq_zero.mp hy, mul_self_eq_zero.mp hz⟩

theorem Vec3.length_eq_sqrt_dot (v : Vec3) : v.length = Real.sqrt (v.dot v) := rfl

theorem Vec3.normalize_unit {v : Vec3} (hv : 0 < v.length) :
    v.normalize.dot v.normalize = 1 := by
  rw [Vec3.normalize, if_pos hv]
  have hlen : v.length * v.length = v.dot v := by
    rw [Vec3.length_eq_sqrt_dot]
    exact Real.mul_self_sqrt (Vec3.dot_self_nonneg v)
  have hne : v.length ≠ 0 := ne_of_gt hv
  rw [Vec3.dot] at *
  field_simp
  linarith [hlen]

theorem Vec3.normalize_zero_or_pos (v : Vec3) :
    v.normalize = ⟨0, 0, 0⟩ ∨ 0 < v.length := by
  rw [Vec3.normalize]
  split
  · right; assumption
  · left; rfl

theorem Vec3.zero_dot (w : Vec3) : (⟨0, 0, 0⟩ : Vec3).dot w = 0 := by
  simp [Vec3.dot]

theorem HitRecord.build_t (ray : Ray) (t : ℝ) (o : Vec3) (m : Material) :
    (HitRecord.build ray t o m).t = t := by
  rw [HitRecord.build]; split <;> rfl

theorem HitRecord.build_point (ray : Ray) (t : ℝ) (o : Vec3) (m : Material) :
    (HitRecord.build ray t o m).point = ray.at t := by
  rw [HitRecord.build]; split <;> rfl

theorem HitRecord.build_material (ray : Ray) (t : ℝ) (o : Vec3) (m : Material) :
    (HitRecord.build ray t o m).material = m := by
  rw [HitRecord.build]; split <;> rfl

theorem HitRecord.build_normal_or (ray : Ray) (t : ℝ) (o : Vec3) (m : Material) :
    (HitRecord.build ray t o m).normal = o ∨ (HitRecord.build ray t o m).normal = o.negate := by
  rw [HitRecord.build]
  split
  · left; rfl
  · right; rfl

theorem HitRecord.build_normal_dot_nonpos (ray : Ray) (t : ℝ) (o : Vec3) (m : Material) :
    (HitRecord.build ray t o m).normal.dot ray.direction ≤ 0 := by
  rw [HitRecord.build]
  split
  · rename_i hlt
    rw [Vec3.dot_comm]
    exact le_of_lt hlt
  · rename_i hge
    rw [Vec3.negate_dot, Vec3.dot_comm]
    push_neg at hge
    linarith

theorem HitRecord.build_normal_unit (ray : Ray) (t : ℝ) {o : Vec3} (m : Material)
    (hu : o.dot o = 1) :
    (HitRecord.build ray t o m).normal.dot (HitRecord.build ray t o m).normal = 1 := by
  rcases HitRecord.build_normal_or ray t o m with h | h <;> rw [h]
  · exact hu
  · rw [show o.negate.dot o.negate = o.dot o by simp only [Vec3.negate, Vec3.dot]; ring]
    exact hu

theorem quadratic_root_eq {b c root : ℝ} (hd : 0 ≤ b * b - 4 * c)
    (hroot : root = (-b - Real.sqrt (b * b - 4 * c)) / 2 ∨
      root = (-b + Real.sqrt (b * b - 4 * c)) / 2) :
    root * root + b * root + c = 0 := by
  have hs := Real.mul_self_sqrt hd
  rcases hroot with h | h <;> subst h <;> nlinarith [hs]

theorem ray_at_sub (ray : Ray) (c : Vec3) (t : ℝ) :
    ((ray.at t).subtract c).dot ((ray.at t).subtract c) =
      (ray.origin.subtract c).dot (ray.origin.subtract c) +
        2 * t * ((ray.origin.subtract c).dot ray.direction) +
        t * t * (ray.direction.dot ray.direction) := by
  simp only [Ray.at, Vec3.add, Vec3.subtract, Vec3.multiply, Vec3.dot]
  ring

theorem sphere_point_on {s : Sphere} {ray : Ray} {root : ℝ}
    (hdir : ray.direction.dot ray.direction = 1) (hd : 0 ≤ s.discrim ray)
    (hroot : root = s.root1 ray ∨ root = s.root2 ray) :
    ((ray.at root).subtract s.center).dot ((ray.at root).subtract s.center) =
      s.radius * s.radius := by
  have hA : s.coeffA ray = 1 := hdir
  have hd' : 0 ≤ s.coeffB ray * s.coeffB ray - 4 * s.coeffC ray := by
    have : s.discrim ray = s.coeffB ray * s.coeffB ray - 4 * s.coeffC ray := by
      rw [Sphere.discrim, hA]; ring
    linarith [hd, this ▸ hd]
  have hq : root * root + s.coeffB ray * root + s.coeffC ray = 0 := by
    apply quadratic_root_eq hd'
    have hds : s.discrim ray = s.coeffB ray * s.coeffB ray - 4 * s.coeffC ray := by
      rw [Sphere.discrim, hA]; ring
    rcases hroot with h | h
    · left
      rw [h, Sphere.root1, hds, hA]
      norm_num
    · right
      rw [h, Sphere.root2, hds, hA]
      norm_num
  rw [ray_at_sub, hdir]
  have hb : (ray.origin.subtract s.center).dot ray.direction = s.coeffB ray / 2 := by
    rw [Sphere.coeffB]; ring
  have hc : (ray.origin.subtract s.center).dot (ray.origin.subtract s.center) =
      s.coeffC ray + s.radius * s.radius := by
    rw [Sphere.coeffC]; ring
  rw [hb, hc]
  nlinarith [hq]

theorem scaled_dot (v : Vec3) (k : ℝ) : (v.multiply k).dot (v.multiply k) = k * k * v.dot v := by
  simp only [Vec3.multiply, Vec3.dot]
  ring

theorem triple_product (e1 e2 d : Vec3) : e1.dot (d.cross e2) = -(d.dot (e1.cross e2)) := by
  simp only [Vec3.dot, Vec3.cross]
  ring

/-- The well-formedness properties a populated `HitRecord` must satisfy:
`t` inside `[tMin, tMax]`, hit point on the ray at `t`, the primitive's
material, and the outward unit normal, flipped if necessary to face against
the incoming ray. -/
def HitProps (ray : Ray) (tMin : ℝ) (tMax : WithTop ℝ) (mat : Material) (outward : Vec3)
    (h : HitRecord) : Prop :=
  tMin ≤ h.t ∧ (h.t : WithTop ℝ) ≤ tMax ∧ h.point = ray.at h.t ∧ h.material = mat ∧
  h.normal.dot ray.direction ≤ 0 ∧ h.normal.dot h.normal = 1 ∧
  (h.normal = outward ∨ h.normal = outward.negate)

theorem sphere_hit_props {s : Sphere} {ray : Ray} {tMin : ℝ} {tMax : WithTop ℝ} {root : ℝ}
    (hdir : ray.direction.dot ray.direction = 1) (hrad : s.radius ≠ 0)
    (hd : 0 ≤ s.discrim ray) (hroot : root = s.root1 ray ∨ root = s.root2 ray)
    (hin : ¬(root < tMin ∨ tMax < (root : WithTop ℝ))) :
    HitProps ray tMin tMax s.material
      (((s.hitAt ray root).point.subtract s.center).multiply (1 / s.radius))
      (s.hitAt ray root) := by
  push_neg at hin
  obtain ⟨h1, h2⟩ := hin
  have hb : s.hitAt ray root =
      HitRecord.build ray root (((ray.at root).subtract s.center).multiply (1 / s.radius))
        s.material := rfl
  have hunit : ((((ray.at root).subtract s.center).multiply (1 / s.radius)).dot
      (((ray.at root).subtract s.center).multiply (1 / s.radius))) = 1 := by
    rw [scaled_dot, sphere_point_on hdir hd hroot]
    field_simp
  refine ⟨?_, ?_, ?_, ?_, ?_, ?_, ?_⟩
  · rw [hb, HitRecord.build_t]; exact h1
  · rw [hb, HitRecord.build_t]; exact h2
  · rw [hb, HitRecord.build_t, HitRecord.build_point]
  · rw [hb, HitRecord.build_material]
  · rw [hb]; exact HitRecord.build_normal_dot_nonpos _ _ _ _
  · rw [hb]; exact HitRecord.build_normal_unit _ _ _ hunit
  · rw [hb, HitRecord.build_point]
    exact HitRecord.build_normal_or _ _ _ _

theorem sphere_intersect_props {s : Sphere} {ray : Ray} {tMin : ℝ} {tMax : WithTop ℝ}
    {h : HitRecord} (hdir : ray.direction.dot ray.direction = 1) (hrad : s.radius ≠ 0)
    (heq : s.intersect ray tMin tMax = some h) :
    HitProps ray tMin tMax s.material ((h.point.subtract s.center).multiply (1 / s.radius))
      h := by
  rw [Sphere.intersect] at heq
  split_ifs at heq with hd hr1 hr2
  · rw [Option.some_inj] at heq
    subst heq
    exact sphere_hit_props hdir hrad (not_lt.mp hd) (Or.inr rfl) hr2
  · rw [Option.some_inj] at heq
    subst heq
    exact sphere_hit_props hdir hrad (not_lt.mp hd) (Or.inl rfl) hr1

theorem plane_intersect_props {pt n : Vec3} {mat : Material} {ray : Ray} {tMin : ℝ}
    {tMax : WithTop ℝ} {h : HitRecord}
    (heq : (Plane.make pt n mat).intersect ray tMin tMax = some h) :
    HitProps ray tMin tMax mat (Plane.make pt n mat).normal h := by
  simp only [Plane.intersect] at heq
  split_ifs at heq with h1 h2
  · rw [Option.some_inj] at heq
    subst heq
    push_neg at h1 h2
    obtain ⟨h2a, h2b⟩ := h2
    have hnz : (Plane.make pt n mat).normal ≠ ⟨0, 0, 0⟩ := by
      intro hz
      rw [hz, Vec3.zero_dot] at h1
      norm_num at h1
    have hpos : 0 < n.length := by
      rcases Vec3.normalize_zero_or_pos n with hcase | hcase
      · exact absurd hcase hnz
      · exact hcase
    have hunit : (Plane.make pt n mat).normal.dot (Plane.make pt n mat).normal = 1 :=
      Vec3.normalize_unit hpos
    refine ⟨?_, ?_, ?_, ?_, ?_, ?_, ?_⟩
    · rw [HitRecord.build_t]; exact h2a
    · rw [HitRecord.build_t]; exact h2b
    · rw [HitRecord.build_t, HitRecord.build_point]
    · rw [HitRecord.build_material]
      rfl
    · exact HitRecord.build_normal_dot_nonpos _ _ _ _
    · exact HitRecord.build_normal_unit _ _ _ hunit
    · exact HitRecord.build_normal_or _ _ _ _

theorem triangle_intersect_props {v0 v1 v2 : Vec3} {mat : Material} {ray : Ray}
    {tMin : ℝ} {tMax : WithTop ℝ} {h : HitRecord}
    (heq : (Triangle.make v0 v1 v2 mat).intersect ray tMin tMax = some h) :
    HitProps ray tMin tMax mat (Triangle.make v0 v1 v2 mat).normal h := by
  simp only [Triangle.intersect] at heq
  split_ifs at heq with h1 h2 h3 h4
  · rw [Option.some_inj] at heq
    subst heq
    push_neg at h4
    obtain ⟨h4a, h4b⟩ := h4
    have hedges : (Triangle.make v0 v1 v2 mat).v1.subtract (Triangle.make v0 v1 v2 mat).v0 =
        v1.subtract v0 := rfl
    have hao : ¬(-1e-8 < ((Triangle.make v0 v1 v2 mat).v1.subtract
        (Triangle.make v0 v1 v2 mat).v0).dot
          (ray.direction.cross ((Triangle.make v0 v1 v2 mat).v2.subtract
            (Triangle.make v0 v1 v2 mat).v0)) ∧
        ((Triangle.make v0 v1 v2 mat).v1.subtract (Triangle.make v0 v1 v2 mat).v0).dot
          (ray.direction.cross ((Triangle.make v0 v1 v2 mat).v2.subtract
            (Triangle.make v0 v1 v2 mat).v0)) < 1e-8) := h1
    have hane : (v1.subtract v0).dot (ray.direction.cross (v2.subtract v0)) ≠ 0 := by
      intro hz
      apply hao
      rw [hedges] at *
      rw [show (Triangle.make v0 v1 v2 mat).v2.subtract (Triangle.make v0 v1 v2 mat).v0 =
        v2.subtract v0 from rfl]
      rw [hz]
      norm_num
    have hcross : (v1.subtract v0).cross (v2.subtract v0) ≠ ⟨0, 0, 0⟩ := by
      intro hz
      apply hane
      rw [triple_product, hz]
      rw [show ray.direction.dot ⟨0, 0, 0⟩ = 0 by rw [Vec3.dot_comm]; exact Vec3.zero_dot _]
      ring
    have hpos : 0 < ((v1.subtract v0).cross (v2.subtract v0)).length := by
      rw [Vec3.length_eq_sqrt_dot]
      exact Real.sqrt_pos.mpr (Vec3.dot_self_pos hcross)
    have hunit : (Triangle.make v0 v1 v2 mat).normal.dot (Triangle.make v0 v1 v2 mat).normal
        = 1 := Vec3.normalize_unit hpos
    refine ⟨?_, ?_, ?_, ?_, ?_, ?_, ?_⟩
    · rw [HitRecord.build_t]; exact h4a
    · rw [HitRecord.build_t]; exact h4b
    · rw [HitRecord.build_t, HitRecord.build_point]
    · rw [HitRecord.build_material]
      rfl
    · exact HitRecord.build_normal_dot_nonpos _ _ _ _
    · exact HitRecord.build_normal_unit _ _ _ hunit
    · exact HitRecord.build_normal_or _ _ _ _

/-- C9: whenever a sphere, plane or triangle `intersect` call returns a hit,
the populated record satisfies `tMin ≤ t ≤ tMax`, `point = origin + t·dir`,
carries the primitive's material, and stores the geometric outward unit
normal flipped, if necessary, so that `normal · direction ≤ 0`.  (The ray
direction is normalized and the sphere radius nonzero, per the data model.) -/
theorem C9_hit_record_well_formed (ray : Ray) (tMin : ℝ) (tMax : WithTop ℝ)
    (h : HitRecord) :
    (∀ s : Sphere, ray.direction.dot ray.direction = 1 → s.radius ≠ 0 →
      s.intersect ray tMin tMax = some h →
      HitProps ray tMin tMax s.material
        ((h.point.subtract s.center).multiply (1 / s.radius)) h) ∧
    (∀ (pt n : Vec3) (mat : Material),
      (Plane.make pt n mat).intersect ray tMin tMax = some h →
      HitProps ray tMin tMax mat (Plane.make pt n mat).normal h) ∧
    (∀ (v0 v1 v2 : Vec3) (mat : Material),
      (Triangle.make v0 v1 v2 mat).intersect ray tMin tMax = some h →
      HitProps ray tMin tMax mat (Triangle.make v0 v1 v2 mat).normal h) :=
  ⟨fun _ hdir hrad heq => sphere_intersect_props hdir hrad heq,
    fun _ _ _ heq => plane_intersect_props heq,
    fun _ _ _ _ heq => triangle_intersect_props heq⟩

theorem normalize_z : (⟨0, 0, 1⟩ : Vec3).normalize = ⟨0, 0, 1⟩ := by
  have hl : (⟨0, 0, 1⟩ : Vec3).length = 1 := by
    show Real.sqrt (0 * 0 + 0 * 0 + 1 * 1) = 1
    norm_num
  rw [Vec3.normalize, if_pos (by rw [hl]; norm_num), hl]
  norm_num

theorem plane_concrete_hit (mat : Material) :
    (Plane.make ⟨0, 0, 0⟩ ⟨0, 0, 1⟩ mat).intersect ⟨⟨0, 0, 2⟩, ⟨0, 0, -1⟩⟩ 0.001 100 =
      some ⟨2, ⟨0, 0, 0⟩, ⟨0, 0, 1⟩, mat, true⟩ := by
  have hmk : Plane.make ⟨0, 0, 0⟩ ⟨0, 0, 1⟩ mat = ⟨⟨0, 0, 0⟩, ⟨0, 0, 1⟩, mat⟩ := by
    rw [Plane.make, normalize_z]
  rw [hmk]
  rw [Plane.intersect]
  have hdenom : (⟨0, 0, 1⟩ : Vec3).dot (⟨0, 0, -1⟩ : Vec3) = -1 := by
    rw [Vec3.dot]; norm_num
  simp only [hdenom]
  rw [if_neg (by norm_num)]
  have ht : ((⟨0, 0, 0⟩ : Vec3).subtract ⟨0, 0, 2⟩).dot ⟨0, 0, 1⟩ / (-1) = 2 := by
    rw [Vec3.subtract, Vec3.dot]
    norm_num
  simp only [ht]
  rw [if_neg]
  · rw [HitRecord.build, if_pos (by norm_num [Vec3.dot])]
    simp only [Ray.at, Vec3.add, Vec3.multiply, HitRecord.mk.injEq, Vec3.mk.injEq]
    norm_num
  · push_neg
    constructor
    · norm_num
    · rw [show ((2 : ℝ) : WithTop ℝ) ≤ (100 : WithTop ℝ) ↔ (2 : ℝ) ≤ 100 from
        WithTop.coe_le_coe]
      norm_num

/-- C9 witness: the ray from `(0,0,2)` along `-Z` against the plane `z = 0`
with upward normal hits at `t = 2`, and the populated record satisfies every
well-formedness property. -/
theorem C9_hit_record_well_formed_witness :
    ((Plane.make ⟨0, 0, 0⟩ ⟨0, 0, 1⟩ ⟨Color.make 1 0 0, 1, 0, 0, 1, 0⟩).intersect
        ⟨⟨0, 0, 2⟩, ⟨0, 0, -1⟩⟩ 0.001 100 =
      some ⟨2, ⟨0, 0, 0⟩, ⟨0, 0, 1⟩, ⟨Color.make 1 0 0, 1, 0, 0, 1, 0⟩, true⟩) ∧
    HitProps ⟨⟨0, 0, 2⟩, ⟨0, 0, -1⟩⟩ 0.001 100 ⟨Color.make 1 0 0, 1, 0, 0, 1, 0⟩
      (Plane.make ⟨0, 0, 0⟩ ⟨0, 0, 1⟩ ⟨Color.make 1 0 0, 1, 0, 0, 1, 0⟩).normal
      ⟨2, ⟨0, 0, 0⟩, ⟨0, 0, 1⟩, ⟨Color.make 1 0 0, 1, 0, 0, 1, 0⟩, true⟩ :=
  ⟨plane_concrete_hit _,
    (C9_hit_record_well_formed ⟨⟨0, 0, 2⟩, ⟨0, 0, -1⟩⟩ 0.001 100
        ⟨2, ⟨0, 0, 0⟩, ⟨0, 0, 1⟩, ⟨Color.make 1 0 0, 1, 0, 0, 1, 0⟩, true⟩).2.1
      ⟨0, 0, 0⟩ ⟨0, 0, 1⟩ ⟨Color.make 1 0 0, 1, 0, 0, 1, 0⟩ (plane_concrete_hit _)⟩

/-! ## Claim C4: helper lemmas

`Scene.intersect` narrows its upper bound `closestSoFar` as it scans, so
permutation invariance rests on how each primitive's `intersect` responds to
a narrowed window: a reported hit survives iff its `t` still fits, and a
miss stays a miss. -/

theorem sphere_root1_le_root2 {s : Sphere} {ray : Ray} (hd : 0 ≤ s.discrim ray) :
    s.root1 ray ≤ s.root2 ray := by
  have ha := coeffA_nonneg s ray
  have hsq := Real.sqrt_nonneg (s.discrim ray)
  rcases eq_or_lt_of_le ha with ha0 | hapos
  · rw [Sphere.root1, Sphere.root2, ← ha0, mul_zero, div_zero, div_zero]
  · rw [Sphere.root1, Sphere.root2, div_le_div_iff_of_pos_right (by linarith)]
    linarith

theorem sphere_hitAt_t (s : Sphere) (ray : Ray) (root : ℝ) :
    (s.hitAt ray root).t = root :=
  HitRecord.build_t ray root _ s.material

theorem sphere_narrow_some {s : Sphere} {ray : Ray} {tMin : ℝ} {T T' : WithTop ℝ}
    (hT : T' ≤ T) {h : HitRecord} (heq : s.intersect ray tMin T = some h) :
    s.intersect ray tMin T' = if (h.t : WithTop ℝ) ≤ T' then some h else none := by
  rw [Sphere.intersect] at heq
  split_ifs at heq with hd hr1 hr2
  · rw [Option.some_inj] at heq
    subst heq
    push_neg at hr2
    obtain ⟨hr2a, hr2b⟩ := hr2
    have hroot1 : s.root1 ray < tMin := by
      rcases hr1 with hcase | hcase
      · exact hcase
      · exfalso
        have hle : (s.root1 ray : WithTop ℝ) ≤ (s.root2 ray : WithTop ℝ) :=
          WithTop.coe_le_coe.mpr (sphere_root1_le_root2 (not_lt.mp hd))
        exact absurd (lt_of_le_of_lt (le_trans hle hr2b) hcase) (lt_irrefl _)
    rw [sphere_hitAt_t]
    rw [Sphere.intersect, if_neg hd, if_pos (Or.inl hroot1)]
    by_cases hc : (s.root2 ray : WithTop ℝ) ≤ T'
    · rw [if_neg, if_pos hc]
      push_neg
      exact ⟨hr2a, hc⟩
    · rw [if_pos (Or.inr (not_le.mp hc)), if_neg hc]
  · rw [Option.some_inj] at heq
    subst heq
    push_neg at hr1
    obtain ⟨hr1a, hr1b⟩ := hr1
    rw [sphere_hitAt_t]
    rw [Sphere.intersect, if_neg hd]
    by_cases hc : (s.root1 ray : WithTop ℝ) ≤ T'
    · rw [if_neg, if_pos hc]
      push_neg
      exact ⟨hr1a, hc⟩
    · have hlt2 : T' < (s.root2 ray : WithTop ℝ) :=
        lt_of_lt_of_le (not_le.mp hc)
          (WithTop.coe_le_coe.mpr (sphere_root1_le_root2 (not_lt.mp hd)))
      rw [if_pos (Or.inr (not_le.mp hc)), if_pos (Or.inr hlt2), if_neg hc]

theorem sphere_narrow_none {s : Sphere} {ray : Ray} {tMin : ℝ} {T T' : WithTop ℝ}
    (hT : T' ≤ T) (heq : s.intersect ray tMin T = none) :
    s.intersect ray tMin T' = none := by
  rw [Sphere.intersect] at heq
  split_ifs at heq with hd hr1 hr2
  · rw [Sphere.intersect, if_pos hd]
  · rw [Sphere.intersect, if_neg hd, if_pos, if_pos]
    · rcases hr2 with hcase | hcase
      · exact Or.inl hcase
      · exact Or.inr (lt_of_le_of_lt hT hcase)
    · rcases hr1 with hcase | hcase
      · exact Or.inl hcase
      · exact Or.inr (lt_of_le_of_lt hT hcase)

theorem plane_narrow_some {p : Plane} {ray : Ray} {tMin : ℝ} {T T' : WithTop ℝ}
    (hT : T' ≤ T) {h : HitRecord} (heq : p.intersect ray tMin T = some h) :
    p.intersect ray tMin T' = if (h.t : WithTop ℝ) ≤ T' then some h else none := by
  simp only [Plane.intersect] at heq ⊢
  split_ifs at heq with h1 h2
  rw [Option.some_inj] at heq
  subst heq
  push_neg at h2
  obtain ⟨h2a, h2b⟩ := h2
  rw [HitRecord.build_t, if_neg h1]
  by_cases hc : ((((p.point.subtract ray.origin).dot p.normal /
      p.normal.dot ray.direction) : ℝ) : WithTop ℝ) ≤ T'
  · rw [if_neg, if_pos hc]
    push_neg
    exact ⟨h2a, hc⟩
  · rw [if_pos (Or.inr (not_le.mp hc)), if_neg hc]

theorem plane_narrow_none {p : Plane} {ray : Ray} {tMin : ℝ} {T T' : WithTop ℝ}
    (hT : T' ≤ T) (heq : p.intersect ray tMin T = none) :
    p.intersect ray tMin T' = none := by
  simp only [Plane.intersect] at heq ⊢
  split_ifs at heq with h1 h2
  · rw [if_pos h1]
  · rw [if_neg h1, if_pos]
    rcases h2 with hcase | hcase
    · exact Or.inl hcase
    · exact Or.inr (lt_of_le_of_lt hT hcase)

theorem triangle_narrow_some {tr : Triangle} {ray : Ray} {tMin : ℝ} {T T' : WithTop ℝ}
    (hT : T' ≤ T) {h : HitRecord} (heq : tr.intersect ray tMin T = some h) :
    tr.intersect ray tMin T' = if (h.t : WithTop ℝ) ≤ T' then some h else none := by
  simp only [Triangle.intersect] at heq ⊢
  split_ifs at heq with h1 h2 h3 h4
  rw [Option.some_inj] at heq
  subst heq
  push_neg at h4
  obtain ⟨h4a, h4b⟩ := h4
  rw [HitRecord.build_t, if_neg h1, if_neg h2, if_neg h3]
  by_cases hc : (((1 / ((tr.v1.subtract tr.v0).dot (ray.direction.cross
        (tr.v2.subtract tr.v0))) *
      ((tr.v2.subtract tr.v0).dot ((ray.origin.subtract tr.v0).cross
        (tr.v1.subtract tr.v0)))) : ℝ) : WithTop ℝ) ≤ T'
  · rw [if_neg, if_pos hc]
    push_neg
    exact ⟨h4a, hc⟩
  · rw [if_pos (Or.inr (not_le.mp hc)), if_neg hc]

theorem triangle_narrow_none {tr : Triangle} {ray : Ray} {tMin : ℝ} {T T' : WithTop ℝ}
    (hT : T' ≤ T) (heq : tr.intersect ray tMin T = none) :
    tr.intersect ray tMin T' = none := by
  simp only [Triangle.intersect] at heq ⊢
  split_ifs at heq with h1 h2 h3 h4
  · rw [if_pos h1]
  · rw [if_neg h1, if_pos h2]
  · rw [if_neg h1, if_neg h2, if_pos h3]
  · rw [if_neg h1, if_neg h2, if_neg h3, if_pos]
    rcases h4 with hcase | hcase
    · exact Or.inl hcase
    · exact Or.inr (lt_of_le_of_lt hT hcase)

theorem obj_narrow_some {o : Obj} (hcf : o.closedForm) {ray : Ray} {tMin : ℝ}
    {T T' : WithTop ℝ} (hT : T' ≤ T) {h : HitRecord}
    (heq : o.intersect ray tMin T = some h) :
    o.intersect ray tMin T' = if (h.t : WithTop ℝ) ≤ T' then some h else none := by
  cases o with
  | sphere s => exact sphere_narrow_some hT heq
  | plane p => exact plane_narrow_some hT heq
  | triangle t => exact triangle_narrow_some hT heq
  | nurbs n => exact hcf.elim

theorem obj_narrow_none {o : Obj} (hcf : o.closedForm) {ray : Ray} {tMin : ℝ}
    {T T' : WithTop ℝ} (hT : T' ≤ T) (heq : o.intersect ray tMin T = none) :
    o.intersect ray tMin T' = none := by
  cases o with
  | sphere s => exact sphere_narrow_none hT heq
  | plane p => exact plane_narrow_none hT heq
  | triangle t => exact triangle_narrow_none hT heq
  | nurbs n => exact hcf.elim

theorem obj_hit_le {o : Obj} (hcf : o.closedForm) {ray : Ray} {tMin : ℝ}
    {T : WithTop ℝ} {h : HitRecord}
    (heq : o.intersect ray tMin T = some h) : (h.t : WithTop ℝ) ≤ T := by
  cases o with
  | nurbs n => exact hcf.elim
  | sphere s =>
    have heq' : s.intersect ray tMin T = some h := heq
    rw [Sphere.intersect] at heq'
    split_ifs at heq' with hd hr1 hr2
    · rw [Option.some_inj] at heq'
      subst heq'
      push_neg at hr2
      rw [sphere_hitAt_t]
      exact hr2.2
    · rw [Option.some_inj] at heq'
      subst heq'
      push_neg at hr1
      rw [sphere_hitAt_t]
      exact hr1.2
  | plane p =>
    have heq' : p.intersect ray tMin T = some h := heq
    simp only [Plane.intersect] at heq'
    split_ifs at heq' with h1 h2
    rw [Option.some_inj] at heq'
    subst heq'
    push_neg at h2
    rw [HitRecord.build_t]
    exact h2.2
  | triangle t =>
    have heq' : t.intersect ray tMin T = some h := heq
    simp only [Triangle.intersect] at heq'
    split_ifs at heq' with h1 h2 h3 h4
    rw [Option.some_inj] at heq'
    subst heq'
    push_neg at h4
    rw [HitRecord.build_t]
    exact h4.2

/-- Two scene objects never report hits at the same parametric distance for
the given ray and `tMin`, whatever the current upper bound is. -/
def TieFree (ray : Ray) (tMin : ℝ) (a b : Obj) : Prop :=
  ∀ (T : WithTop ℝ) (h h' : HitRecord),
    a.intersect ray tMin T = some h → b.intersect ray tMin T = some h' → h.t ≠ h'.t

theorem tieFree_symm (ray : Ray) (tMin : ℝ) : Symmetric (TieFree ray tMin) := by
  intro a b hab T h h' hb ha
  exact (hab T h' h ha hb).symm

theorem sceneStep_comm (ray : Ray) (tMin : ℝ) {a b : Obj} (hcfa : a.closedForm)
    (hcfb : b.closedForm) (hab : TieFree ray tMin a b)
    (acc : WithTop ℝ × Option HitRecord) :
    sceneStep ray tMin (sceneStep ray tMin acc a) b =
      sceneStep ray tMin (sceneStep ray tMin acc b) a := by
  obtain ⟨T, best⟩ := acc
  rcases ca : a.intersect ray tMin T with _ | ha <;>
    rcases cb : b.intersect ray tMin T with _ | hb
  · simp [sceneStep, ca, cb]
  · have ha' : a.intersect ray tMin ((hb.t : WithTop ℝ)) = none :=
      obj_narrow_none hcfa (obj_hit_le hcfb cb) ca
    simp [sceneStep, ca, cb, ha']
  · have hb' : b.intersect ray tMin ((ha.t : WithTop ℝ)) = none :=
      obj_narrow_none hcfb (obj_hit_le hcfa ca) cb
    simp [sceneStep, ca, cb, hb']
  · have hne : ha.t ≠ hb.t := hab T ha hb ca cb
    have ha' := obj_narrow_some hcfa (obj_hit_le hcfb cb) ca
    have hb' := obj_narrow_some hcfb (obj_hit_le hcfa ca) cb
    rcases lt_or_gt_of_ne hne with hlt | hgt
    · rw [if_neg (by
        rw [WithTop.coe_le_coe]
        exact not_le.mpr hlt)] at hb'
      rw [if_pos (WithTop.coe_le_coe.mpr (le_of_lt hlt))] at ha'
      simp [sceneStep, ca, cb, ha', hb']
    · rw [if_neg (by
        rw [WithTop.coe_le_coe]
        exact not_le.mpr hgt)] at ha'
      rw [if_pos (WithTop.coe_le_coe.mpr (le_of_lt hgt))] at hb'
      simp [sceneStep, ca, cb, ha', hb']

theorem foldl_sceneStep_perm (ray : Ray) (tMin : ℝ) {l₁ l₂ : List Obj}
    (p : l₁.Perm l₂) :
    (∀ o ∈ l₁, o.closedForm) → l₁.Pairwise (TieFree ray tMin) → ∀ acc,
      l₁.foldl (sceneStep ray tMin) acc = l₂.foldl (sceneStep ray tMin) acc := by
  induction p with
  | nil => intro _ _ acc; rfl
  | cons x p ih =>
    intro hc hp acc
    simp only [List.foldl_cons]
    exact ih (fun o ho => hc o (List.mem_cons_of_mem x ho)) hp.of_cons _
  | swap x y l =>
    intro hc hp acc
    simp only [List.foldl_cons]
    rw [sceneStep_comm ray tMin
      (hc y (List.mem_cons_self y (x :: l)))
      (hc x (List.mem_cons_of_mem y (List.mem_cons_self x l)))
      ((List.pairwise_cons.mp hp).1 x (List.mem_cons_self x l)) acc]
  | trans p₁ p₂ ih₁ ih₂ =>
    intro hc hp acc
    rw [ih₁ hc hp acc,
      ih₂ (fun o ho => hc o (p₁.mem_iff.mpr ho))
        ((p₁.pairwise_iff fun hxy => tieFree_symm ray tMin hxy).mp hp) acc]

/-- C4 as stated is false; this is the amended statement: when the object
list holds only closed-form primitives (spheres, planes, triangles),
`Scene.intersect` is invariant under permutation of the list whenever no two
objects report hits at the same parametric distance.  Ties are broken by
list order (see the counterexample), and a NURBS surface in the list can
break invariance even without ties, because its bounding-box cull is
evaluated against the narrowed `tMax` (see
`nurbs_box_cull_breaks_perm_invariance`). -/
theorem C4_scene_intersect_perm_invariant_amended (ray : Ray) (tMin : ℝ)
    (tMax : WithTop ℝ) (objs objs' : List Obj) (hperm : objs.Perm objs')
    (hclosed : ∀ o ∈ objs, o.closedForm)
    (htie : objs.Pairwise (TieFree ray tMin)) :
    Scene.intersect objs ray tMin tMax = Scene.intersect objs' ray tMin tMax := by
  rw [Scene.intersect, Scene.intersect,
    foldl_sceneStep_perm ray tMin hperm hclosed htie]

theorem plane_intersect_eq_some (p : Plane) (ray : Ray) (tMin : ℝ) (T : WithTop ℝ)
    (t : ℝ) (hdenom : ¬|p.normal.dot ray.direction| < 1e-8)
    (ht : (p.point.subtract ray.origin).dot p.normal / p.normal.dot ray.direction = t)
    (hrange : ¬(t < tMin ∨ T < (t : WithTop ℝ))) :
    p.intersect ray tMin T = some (HitRecord.build ray t p.normal p.material) := by
  simp only [Plane.intersect, ht]
  rw [if_neg hdenom, if_neg hrange]

theorem plane_hit_t {p : Plane} {ray : Ray} {tMin : ℝ} {T : WithTop ℝ} {h : HitRecord}
    (heq : p.intersect ray tMin T = some h) :
    h.t = (p.point.subtract ray.origin).dot p.normal / p.normal.dot ray.direction := by
  simp only [Plane.intersect] at heq
  split_ifs at heq
  rw [Option.some_inj] at heq
  subst heq
  rw [HitRecord.build_t]

/-- A red material and a green material (used by the order-dependence
counterexample). -/
def matRed : Material := ⟨Color.make 0.8 0.2 0.2, 0.1, 0.7, 0.2, 32, 0⟩

def matGreen : Material := ⟨Color.make 0.2 0.8 0.2, 0.1, 0.7, 0.2, 32, 0⟩

def demoRay : Ray := ⟨⟨0, 0, 2⟩, ⟨0, 0, -1⟩⟩

noncomputable def coincidentRed : Obj := Obj.plane (Plane.make ⟨0, 0, 0⟩ ⟨0, 0, 1⟩ matRed)

noncomputable def coincidentGreen : Obj := Obj.plane (Plane.make ⟨0, 0, 0⟩ ⟨0, 0, 1⟩ matGreen)

noncomputable def farGreen : Obj := Obj.plane (Plane.make ⟨0, 0, -5⟩ ⟨0, 0, 1⟩ matGreen)

theorem scene_two_coincident_planes (m1 m2 : Material) :
    Scene.intersect
        [Obj.plane (Plane.make ⟨0, 0, 0⟩ ⟨0, 0, 1⟩ m1),
          Obj.plane (Plane.make ⟨0, 0, 0⟩ ⟨0, 0, 1⟩ m2)]
        ⟨⟨0, 0, 2⟩, ⟨0, 0, -1⟩⟩ 0.001 100 =
      some (HitRecord.build ⟨⟨0, 0, 2⟩, ⟨0, 0, -1⟩⟩ 2 ⟨0, 0, 1⟩ m2) := by
  have hmk : ∀ m : Material, Plane.make ⟨0, 0, 0⟩ ⟨0, 0, 1⟩ m = ⟨⟨0, 0, 0⟩, ⟨0, 0, 1⟩, m⟩ :=
    fun m => by rw [Plane.make, normalize_z]
  have h1 : (⟨⟨0, 0, 0⟩, ⟨0, 0, 1⟩, m1⟩ : Plane).intersect ⟨⟨0, 0, 2⟩, ⟨0, 0, -1⟩⟩ 0.001
      (100 : WithTop ℝ) = some (HitRecord.build ⟨⟨0, 0, 2⟩, ⟨0, 0, -1⟩⟩ 2 ⟨0, 0, 1⟩ m1) :=
    plane_intersect_eq_some _ _ _ _ 2 (by norm_num [Vec3.dot])
      (by norm_num [Vec3.dot, Vec3.subtract])
      (by
        push_neg
        refine ⟨by norm_num, ?_⟩
        rw [show ((2 : ℝ) : WithTop ℝ) ≤ (100 : WithTop ℝ) ↔ (2 : ℝ) ≤ 100 from
          WithTop.coe_le_coe]
        norm_num)
  have h2 : (⟨⟨0, 0, 0⟩, ⟨0, 0, 1⟩, m2⟩ : Plane).intersect ⟨⟨0, 0, 2⟩, ⟨0, 0, -1⟩⟩ 0.001
      (((2 : ℝ)) : WithTop ℝ) = some (HitRecord.build ⟨⟨0, 0, 2⟩, ⟨0, 0, -1⟩⟩ 2 ⟨0, 0, 1⟩ m2) :=
    plane_intersect_eq_some _ _ _ _ 2 (by norm_num [Vec3.dot])
      (by norm_num [Vec3.dot, Vec3.subtract])
      (by
        push_neg
        exact ⟨by norm_num, le_refl _⟩)
  rw [Scene.intersect]
  simp only [List.foldl_cons, List.foldl_nil, hmk, sceneStep, Obj.intersect, h1,
    HitRecord.build_t, h2]

/-- C4 counterexample: two coincident planes with different materials; the
scan reports the material of whichever plane comes last, so swapping the two
list entries changes the returned record. -/
theorem C4_scene_intersect_perm_invariant_counterexample :
    ([coincidentRed, coincidentGreen] : List Obj).Perm [coincidentGreen, coincidentRed] ∧
    Scene.intersect [coincidentRed, coincidentGreen] demoRay 0.001 100 ≠
      Scene.intersect [coincidentGreen, coincidentRed] demoRay 0.001 100 := by
  constructor
  · exact List.Perm.swap coincidentGreen coincidentRed []
  · simp only [coincidentRed, coincidentGreen, demoRay]
    rw [scene_two_coincident_planes matRed matGreen,
      scene_two_coincident_planes matGreen matRed]
    intro heq
    rw [Option.some_inj] at heq
    have hm : matGreen = matRed := by
      have h1 := congrArg HitRecord.material heq
      rwa [HitRecord.build_material, HitRecord.build_material] at h1
    have h2 := congrArg (fun m : Material => m.color.r) hm
    simp only [matRed, matGreen, Color.make] at h2
    rw [min_eq_right (by norm_num : (0.2 : ℝ) ≤ 1),
      min_eq_right (by norm_num : (0.8 : ℝ) ≤ 1),
      max_eq_right (by norm_num : (0 : ℝ) ≤ 0.2),
      max_eq_right (by norm_num : (0 : ℝ) ≤ 0.8)] at h2
    norm_num at h2

theorem tieFree_demo : TieFree demoRay 0.001 coincidentRed farGreen := by
  intro T h h' hA hB
  have hA' : (Plane.make ⟨0, 0, 0⟩ ⟨0, 0, 1⟩ matRed).intersect demoRay 0.001 T = some h := hA
  have hB' : (Plane.make ⟨0, 0, -5⟩ ⟨0, 0, 1⟩ matGreen).intersect demoRay 0.001 T =
      some h' := hB
  have hmk0 : Plane.make ⟨0, 0, 0⟩ ⟨0, 0, 1⟩ matRed = ⟨⟨0, 0, 0⟩, ⟨0, 0, 1⟩, matRed⟩ := by
    rw [Plane.make, normalize_z]
  have hmk5 : Plane.make ⟨0, 0, -5⟩ ⟨0, 0, 1⟩ matGreen =
      ⟨⟨0, 0, -5⟩, ⟨0, 0, 1⟩, matGreen⟩ := by
    rw [Plane.make, normalize_z]
  have ht1 : h.t = 2 := by
    rw [plane_hit_t hA', hmk0]
    norm_num [Vec3.dot, Vec3.subtract, demoRay]
  have ht2 : h'.t = 7 := by
    rw [plane_hit_t hB', hmk5]
    norm_num [Vec3.dot, Vec3.subtract, demoRay]
  rw [ht1, ht2]
  norm_num

theorem pairwise_demo : ([coincidentRed, farGreen] : List Obj).Pairwise
    (TieFree demoRay 0.001) := by
  refine List.pairwise_cons.mpr ⟨?_, List.pairwise_singleton _ _⟩
  intro b hb
  rw [List.mem_singleton] at hb
  subst hb
  exact tieFree_demo

theorem closedForm_demo : ∀ o ∈ ([coincidentRed, farGreen] : List Obj), o.closedForm := by
  intro o ho
  rcases List.mem_cons.mp ho with h | h
  · subst h; exact trivial
  · rw [List.mem_singleton] at h
    subst h; exact trivial

/-- C4 witness for the amended claim: two planes hit at distinct distances
(2 and 7); the scan result is invariant under swapping them. -/
theorem C4_scene_intersect_perm_invariant_amended_witness :
    (([coincidentRed, farGreen] : List Obj).Perm [farGreen, coincidentRed] ∧
      (∀ o ∈ ([coincidentRed, farGreen] : List Obj), o.closedForm) ∧
      ([coincidentRed, farGreen] : List Obj).Pairwise (TieFree demoRay 0.001)) ∧
    Scene.intersect [coincidentRed, farGreen] demoRay 0.001 100 =
      Scene.intersect [farGreen, coincidentRed] demoRay 0.001 100 :=
  ⟨⟨List.Perm.swap farGreen coincidentRed [], closedForm_demo, pairwise_demo⟩,
    C4_scene_intersect_perm_invariant_amended demoRay 0.001 100 _ _
      (List.Perm.swap farGreen coincidentRed []) closedForm_demo pairwise_demo⟩

/-! ## A NURBS surface in the scene breaks permutation invariance without ties

The box cull of `NURBSSurfaceGeom.intersect` runs against the narrowed
`tMax`, so a tessellated triangle lying outside the control-point box (as a
zero-weight control point produces) can be found under a wide window and
culled away under a narrow one.  The demonstration below realizes this with
a bilinear patch's stray corner triangle: its two box-side vertices are the
control points `S(1, 14/15)` and `S(14/15, 1)` of the patch and its third
vertex is the zero-point fallback of `evaluatePoint` at the zero-weight
corner. -/

theorem triangle_intersect_eq_some (tr : Triangle) (ray : Ray) (tMin : ℝ)
    (T : WithTop ℝ) (a u v t : ℝ)
    (hA : (tr.v1.subtract tr.v0).dot (ray.direction.cross (tr.v2.subtract tr.v0)) = a)
    (hOut : ¬(-1e-8 < a ∧ a < 1e-8))
    (hU : 1 / a * (ray.origin.subtract tr.v0).dot
      (ray.direction.cross (tr.v2.subtract tr.v0)) = u)
    (hUr : ¬(u < 0 ∨ 1 < u))
    (hV : 1 / a * ray.direction.dot
      ((ray.origin.subtract tr.v0).cross (tr.v1.subtract tr.v0)) = v)
    (hVr : ¬(v < 0 ∨ 1 < u + v))
    (hT2 : 1 / a * (tr.v2.subtract tr.v0).dot
      ((ray.origin.subtract tr.v0).cross (tr.v1.subtract tr.v0)) = t)
    (hTr : ¬(t < tMin ∨ T < (t : WithTop ℝ))) :
    tr.intersect ray tMin T = some (HitRecord.build ray t tr.normal tr.material) := by
  simp only [Triangle.intersect, hA, hU, hV, hT2]
  rw [if_neg hOut, if_neg hUr, if_neg hVr, if_neg hTr]

theorem triangle_hit_t {tr : Triangle} {ray : Ray} {tMin : ℝ} {T : WithTop ℝ}
    {h : HitRecord} (heq : tr.intersect ray tMin T = some h) :
    h.t = 1 / ((tr.v1.subtract tr.v0).dot (ray.direction.cross (tr.v2.subtract tr.v0))) *
      ((tr.v2.subtract tr.v0).dot ((ray.origin.subtract tr.v0).cross
        (tr.v1.subtract tr.v0))) := by
  simp only [Triangle.intersect] at heq
  split_ifs at heq
  rw [Option.some_inj] at heq
  subst heq
  rw [HitRecord.build_t]

theorem plane_intersect_eq_none_of_range (p : Plane) (ray : Ray) (tMin : ℝ)
    (T : WithTop ℝ) (t : ℝ) (hdenom : ¬|p.normal.dot ray.direction| < 1e-8)
    (ht : (p.point.subtract ray.origin).dot p.normal / p.normal.dot ray.direction = t)
    (hrange : t < tMin ∨ T < (t : WithTop ℝ)) :
    p.intersect ray tMin T = none := by
  simp only [Plane.intersect, ht]
  rw [if_neg hdenom, if_pos hrange]

theorem slabCheck_eval (o d minV maxV : ℝ) (acc : ℝ × WithTop ℝ) (tN tF : ℝ)
    (hd : ¬|d| < 1e-10)
    (hN : min ((minV - o) / d) ((maxV - o) / d) = tN)
    (hF : max ((minV - o) / d) ((maxV - o) / d) = tF) :
    slabCheck o d minV maxV acc =
      if min acc.2 ((tF : ℝ) : WithTop ℝ) < ((max acc.1 tN : ℝ) : WithTop ℝ) then none
      else some (max acc.1 tN, min acc.2 ((tF : ℝ) : WithTop ℝ)) := by
  simp only [slabCheck, hN, hF]
  rw [if_neg hd]

/-- The demonstration ray, built by the `Ray` constructor: its direction
normalizes to `(1/3, 2/3, -2/3)`. -/
noncomputable def demoRay2 : Ray := Ray.make ⟨0.2, -0.6, 0⟩ ⟨1, 2, -2⟩

theorem demoRay2_eq : demoRay2 = ⟨⟨0.2, -0.6, 0⟩, ⟨1/3, 2/3, -2/3⟩⟩ := by
  have hl : (⟨1, 2, -2⟩ : Vec3).length = 3 := by
    show Real.sqrt (1 * 1 + 2 * 2 + (-2) * (-2)) = 3
    rw [show (1 * 1 + 2 * 2 + (-2) * (-2) : ℝ) = 3 ^ 2 by norm_num,
      Real.sqrt_sq (by norm_num : (0 : ℝ) ≤ 3)]
  rw [demoRay2, Ray.make, Vec3.normalize, if_pos (by rw [hl]; norm_num), hl]

/-- The stray tessellation triangle of the zero-weight bilinear patch: two
vertices are control points of the patch (inside the control box
`[10,11] × [18,20] × [-20,-18]`), the third is `evaluatePoint`'s zero-point
fallback at the zero-weight corner. -/
noncomputable def strayTri : Triangle :=
  Triangle.make ⟨11, 18, -20⟩ ⟨10, 19, -20⟩ ⟨0, 0, 0⟩ matGreen

/-- The post-construction geometry of the zero-weight patch: the
control-point bounding box together with the stray triangle of its
tessellation (the patch's remaining triangles are irrelevant to the ray
used below). -/
noncomputable def demoNurbs : NURBSSurfaceGeom :=
  ⟨⟨10, 18, -20⟩, ⟨11, 20, -18⟩, [strayTri], matGreen⟩

noncomputable def demoNurbsObj : Obj := Obj.nurbs demoNurbs

/-- A plane the demonstration ray hits at `t = 18`, between the stray
triangle hit (`t = 12`) and the box window (`t ∈ [29.4, 30]`). -/
noncomputable def midPlane : Obj := Obj.plane (Plane.make ⟨0, 0, -12⟩ ⟨0, 0, 1⟩ matRed)

theorem strayTri_hit (T : WithTop ℝ) (hT : ¬T < ((12 : ℝ) : WithTop ℝ)) :
    strayTri.intersect ⟨⟨0.2, -0.6, 0⟩, ⟨1/3, 2/3, -2/3⟩⟩ 0.001 T =
      some (HitRecord.build ⟨⟨0.2, -0.6, 0⟩, ⟨1/3, 2/3, -2/3⟩⟩ 12 strayTri.normal
        matGreen) := by
  refine triangle_intersect_eq_some strayTri ⟨⟨0.2, -0.6, 0⟩, ⟨1/3, 2/3, -2/3⟩⟩ 0.001 T
    (-2/3) (1/5) (3/5) 12 ?_ ?_ ?_ ?_ ?_ ?_ ?_ ?_
  · norm_num [strayTri, Triangle.make, Vec3.subtract, Vec3.cross, Vec3.dot]
  · norm_num
  · norm_num [strayTri, Triangle.make, Vec3.subtract, Vec3.cross, Vec3.dot]
  · norm_num
  · norm_num [strayTri, Triangle.make, Vec3.subtract, Vec3.cross, Vec3.dot]
  · norm_num
  · norm_num [strayTri, Triangle.make, Vec3.subtract, Vec3.cross, Vec3.dot]
  · push_neg
    exact ⟨by norm_num, not_lt.mp hT⟩

theorem abs_one_third : |(1/3 : ℝ)| = 1/3 := abs_of_pos (by norm_num)

theorem abs_two_thirds : |(2/3 : ℝ)| = 2/3 := abs_of_pos (by norm_num)

theorem demo_slab_x_wide :
    slabCheck 0.2 (1/3) 10 11 (0.001, (⊤ : WithTop ℝ)) =
      some (29.4, ((32.4 : ℝ) : WithTop ℝ)) := by
  rw [slabCheck_eval 0.2 (1/3) 10 11 _ 29.4 32.4 (by norm_num [abs_one_third])
    (by norm_num [min_def]) (by norm_num [max_def])]
  rw [min_eq_right (le_top : ((32.4 : ℝ) : WithTop ℝ) ≤ ⊤),
    max_eq_right (by norm_num : (0.001 : ℝ) ≤ 29.4),
    if_neg (not_lt.mpr (WithTop.coe_le_coe.mpr (by norm_num)))]

theorem demo_slab_y_wide :
    slabCheck (-0.6) (2/3) 18 20 (29.4, ((32.4 : ℝ) : WithTop ℝ)) =
      some (29.4, ((30.9 : ℝ) : WithTop ℝ)) := by
  rw [slabCheck_eval (-0.6) (2/3) 18 20 _ 27.9 30.9 (by norm_num [abs_two_thirds])
    (by norm_num [min_def]) (by norm_num [max_def])]
  rw [← WithTop.coe_min, min_eq_right (by norm_num : (30.9 : ℝ) ≤ 32.4),
    max_eq_left (by norm_num : (27.9 : ℝ) ≤ 29.4),
    if_neg (not_lt.mpr (WithTop.coe_le_coe.mpr (by norm_num)))]

theorem demo_slab_z_wide :
    slabCheck 0 (-2/3) (-20) (-18) (29.4, ((30.9 : ℝ) : WithTop ℝ)) =
      some (29.4, ((30 : ℝ) : WithTop ℝ)) := by
  rw [slabCheck_eval 0 (-2/3) (-20) (-18) _ 27 30 (by norm_num [abs_two_thirds])
    (by norm_num [min_def]) (by norm_num [max_def])]
  rw [← WithTop.coe_min, min_eq_right (by norm_num : (30 : ℝ) ≤ 30.9),
    max_eq_left (by norm_num : (27 : ℝ) ≤ 29.4),
    if_neg (not_lt.mpr (WithTop.coe_le_coe.mpr (by norm_num)))]

theorem demo_slab_x_narrow :
    slabCheck 0.2 (1/3) 10 11 (0.001, ((18 : ℝ) : WithTop ℝ)) = none := by
  rw [slabCheck_eval 0.2 (1/3) 10 11 _ 29.4 32.4 (by norm_num [abs_one_third])
    (by norm_num [min_def]) (by norm_num [max_def])]
  rw [← WithTop.coe_min, min_eq_left (by norm_num : (18 : ℝ) ≤ 32.4),
    max_eq_right (by norm_num : (0.001 : ℝ) ≤ 29.4),
    if_pos (WithTop.coe_lt_coe.mpr (by norm_num))]

theorem demo_box_wide :
    demoNurbs.intersectBoundingBox ⟨⟨0.2, -0.6, 0⟩, ⟨1/3, 2/3, -2/3⟩⟩ 0.001 ⊤ = true := by
  simp only [NURBSSurfaceGeom.intersectBoundingBox, demoNurbs, demo_slab_x_wide,
    demo_slab_y_wide, demo_slab_z_wide]

theorem demo_box_narrow :
    demoNurbs.intersectBoundingBox ⟨⟨0.2, -0.6, 0⟩, ⟨1/3, 2/3, -2/3⟩⟩ 0.001
      ((18 : ℝ) : WithTop ℝ) = false := by
  simp only [NURBSSurfaceGeom.intersectBoundingBox, demoNurbs, demo_slab_x_narrow]

theorem demoNurbs_hit :
    demoNurbs.intersect ⟨⟨0.2, -0.6, 0⟩, ⟨1/3, 2/3, -2/3⟩⟩ 0.001 ⊤ =
      some (HitRecord.build ⟨⟨0.2, -0.6, 0⟩, ⟨1/3, 2/3, -2/3⟩⟩ 12 strayTri.normal
        matGreen) := by
  rw [NURBSSurfaceGeom.intersect, if_pos demo_box_wide]
  simp only [demoNurbs, List.foldl_cons, List.foldl_nil,
    strayTri_hit ⊤ (not_top_lt : ¬(⊤ : WithTop ℝ) < ((12 : ℝ) : WithTop ℝ))]

theorem demoNurbs_miss :
    demoNurbs.intersect ⟨⟨0.2, -0.6, 0⟩, ⟨1/3, 2/3, -2/3⟩⟩ 0.001
      ((18 : ℝ) : WithTop ℝ) = none := by
  rw [NURBSSurfaceGeom.intersect, if_neg]
  rw [demo_box_narrow]
  simp

theorem demoNurbs_hit_t (T : WithTop ℝ) (h : HitRecord)
    (heq : demoNurbs.intersect ⟨⟨0.2, -0.6, 0⟩, ⟨1/3, 2/3, -2/3⟩⟩ 0.001 T = some h) :
    h.t = 12 := by
  rw [NURBSSurfaceGeom.intersect] at heq
  by_cases hb : demoNurbs.intersectBoundingBox ⟨⟨0.2, -0.6, 0⟩, ⟨1/3, 2/3, -2/3⟩⟩ 0.001 T
      = true
  · rw [if_pos hb] at heq
    simp only [demoNurbs, List.foldl_cons, List.foldl_nil] at heq
    rcases hc : strayTri.intersect ⟨⟨0.2, -0.6, 0⟩, ⟨1/3, 2/3, -2/3⟩⟩ 0.001 T with _ | k
    · rw [hc] at heq
      exact absurd heq (by simp)
    · rw [hc] at heq
      simp only [Option.some_inj] at heq
      subst heq
      rw [triangle_hit_t hc]
      norm_num [strayTri, Triangle.make, Vec3.subtract, Vec3.cross, Vec3.dot]
  · rw [if_neg hb] at heq
    exact absurd heq (by simp)

theorem midPlane_make_eq :
    Plane.make ⟨0, 0, -12⟩ ⟨0, 0, 1⟩ matRed = ⟨⟨0, 0, -12⟩, ⟨0, 0, 1⟩, matRed⟩ := by
  rw [Plane.make, normalize_z]

theorem midPlane_hit :
    (⟨⟨0, 0, -12⟩, ⟨0, 0, 1⟩, matRed⟩ : Plane).intersect
      ⟨⟨0.2, -0.6, 0⟩, ⟨1/3, 2/3, -2/3⟩⟩ 0.001 ⊤ =
      some (HitRecord.build ⟨⟨0.2, -0.6, 0⟩, ⟨1/3, 2/3, -2/3⟩⟩ 18 ⟨0, 0, 1⟩ matRed) :=
  plane_intersect_eq_some _ _ _ _ 18 (by norm_num [Vec3.dot, abs_two_thirds])
    (by norm_num [Vec3.dot, Vec3.subtract])
    (by
      push_neg
      exact ⟨by norm_num, le_top⟩)

theorem midPlane_miss_at_12 :
    (⟨⟨0, 0, -12⟩, ⟨0, 0, 1⟩, matRed⟩ : Plane).intersect
      ⟨⟨0.2, -0.6, 0⟩, ⟨1/3, 2/3, -2/3⟩⟩ 0.001 ((12 : ℝ) : WithTop ℝ) = none :=
  plane_intersect_eq_none_of_range _ _ _ _ 18 (by norm_num [Vec3.dot, abs_two_thirds])
    (by norm_num [Vec3.dot, Vec3.subtract])
    (Or.inr (WithTop.coe_lt_coe.mpr (by norm_num)))

theorem midPlane_hit_t (T : WithTop ℝ) (h : HitRecord)
    (heq : Obj.intersect midPlane demoRay2 0.001 T = some h) : h.t = 18 := by
  have heq' : (Plane.make ⟨0, 0, -12⟩ ⟨0, 0, 1⟩ matRed).intersect demoRay2 0.001 T =
      some h := heq
  rw [plane_hit_t heq', midPlane_make_eq, demoRay2_eq]
  norm_num [Vec3.dot, Vec3.subtract]

theorem tieFree_nurbs_demo : TieFree demoRay2 0.001 demoNurbsObj midPlane := by
  intro T h h' hN hP
  have hN' : demoNurbs.intersect demoRay2 0.001 T = some h := hN
  rw [demoRay2_eq] at hN'
  rw [demoNurbs_hit_t T h hN', midPlane_hit_t T h' hP]
  norm_num

theorem pairwise_nurbs_demo : ([demoNurbsObj, midPlane] : List Obj).Pairwise
    (TieFree demoRay2 0.001) := by
  refine List.pairwise_cons.mpr ⟨?_, List.pairwise_singleton _ _⟩
  intro b hb
  rw [List.mem_singleton] at hb
  subst hb
  exact tieFree_nurbs_demo

theorem scene_nurbs_first :
    Scene.intersect [demoNurbsObj, midPlane] demoRay2 0.001 ⊤ =
      some (HitRecord.build ⟨⟨0.2, -0.6, 0⟩, ⟨1/3, 2/3, -2/3⟩⟩ 12 strayTri.normal
        matGreen) := by
  rw [demoRay2_eq, Scene.intersect]
  simp only [List.foldl_cons, List.foldl_nil, sceneStep, Obj.intersect, demoNurbsObj,
    midPlane, demoNurbs_hit, HitRecord.build_t, midPlane_make_eq, midPlane_miss_at_12]

theorem scene_plane_first :
    Scene.intersect [midPlane, demoNurbsObj] demoRay2 0.001 ⊤ =
      some (HitRecord.build ⟨⟨0.2, -0.6, 0⟩, ⟨1/3, 2/3, -2/3⟩⟩ 18 ⟨0, 0, 1⟩ matRed) := by
  rw [demoRay2_eq, Scene.intersect]
  simp only [List.foldl_cons, List.foldl_nil, sceneStep, Obj.intersect, demoNurbsObj,
    midPlane, midPlane_make_eq, midPlane_hit, HitRecord.build_t, demoNurbs_miss]

/-- With a NURBS surface in the scene, `Scene.intersect` is order-dependent
even though the two objects' hit distances are distinct at every window
(12 versus 18): scanned first, the surface's wide box window admits the
stray triangle's hit; scanned after the plane's hit at 18, the narrowed
window empties the box slab interval `[29.4, 30]` and the surface is culled
without its triangles ever being tested. -/
theorem nurbs_box_cull_breaks_perm_invariance :
    ([demoNurbsObj, midPlane] : List Obj).Perm [midPlane, demoNurbsObj] ∧
    ([demoNurbsObj, midPlane] : List Obj).Pairwise (TieFree demoRay2 0.001) ∧
    Scene.intersect [demoNurbsObj, midPlane] demoRay2 0.001 ⊤ ≠
      Scene.intersect [midPlane, demoNurbsObj] demoRay2 0.001 ⊤ := by
  refine ⟨List.Perm.swap midPlane demoNurbsObj [], pairwise_nurbs_demo, ?_⟩
  rw [scene_nurbs_first, scene_plane_first]
  intro heq
  rw [Option.some_inj] at heq
  have hm : matGreen = matRed := by
    have h1 := congrArg HitRecord.material heq
    rwa [HitRecord.build_material, HitRecord.build_material] at h1
  have h2 := congrArg (fun m : Material => m.color.r) hm
  simp only [matRed, matGreen, Color.make] at h2
  rw [min_eq_right (by norm_num : (0.2 : ℝ) ≤ 1),
    min_eq_right (by norm_num : (0.8 : ℝ) ≤ 1),
    max_eq_right (by norm_num : (0 : ℝ) ≤ 0.2),
    max_eq_right (by norm_num : (0 : ℝ) ≤ 0.8)] at h2
  norm_num at h2

end Render
